import Mathlib

set_option maxRecDepth 100000

/-!
Shallow embedding of the SynergySphere analytics and finance services
(`backend/services/analytics_service.py` and
`backend/services/finance_service.py`) and proofs about them.

Modelling conventions:
* Instants are integers counting days; `timedelta(weeks=k)` is `7*k`,
  `timedelta(days=k)` is `k`, and `(a - b).days` is `a - b`.
* Monetary amounts and rates are exact rationals (`ℚ`) standing for Python
  floats; the embedding reasons in exact arithmetic.
* `round(x, n)`, applied by the source only while assembling the response
  payload, is display formatting (spec section 6); embedded results carry the
  unrounded values.
* `datetime.strftime` bucket labels are represented by the bucket start
  instant.  The year-month key `strftime('%Y-%m')` is an abstract key
  function `ym : Int → Int` passed to the operations that group by calendar
  month, since the embedding does not model the Gregorian calendar; the
  engine only ever compares such keys for equality.
* `get_utc_now()` is the field `now` of the environment, and
  `get_utc_now().replace(day=1)` is the field `firstOfMonth`.
* Python exceptions are values of `Except Err`; a `try/except Exception`
  block is a `match` on the inner `Except`.
* Message texts built by f-strings are presentation (spec section 9): the
  embedding keeps the fixed English words of each message, dropping emoji
  prefixes and interpolated numbers, which preserves distinctness of
  distinct messages (the only property the engine uses, for set-dedup).
* Python dictionaries are association lists in key insertion order;
  `list(set(...))` iterates a set in unspecified order, modelled as
  first-occurrence order, with only the underlying set significant.
-/

deriving instance DecidableEq for Except

namespace SynergySphere

/-- Task status enumeration (`models.TaskStatus`). -/
inductive TaskStatus
  | pending
  | inProgress
  | completed
deriving DecidableEq, Repr

/-- Snapshot of a task row, the fields the analytics engine reads. -/
structure TaskRec where
  tid : Nat
  title : String
  status : TaskStatus
  createdAt : Option Int
  dueDate : Option Int
  lastProgressUpdate : Option Int
  subtaskCount : Nat
  projectId : Nat
  ownerId : Nat
deriving DecidableEq, Repr

/-- Modelled from the spec: `Task.is_overdue` lives in the `models` module,
which is not among the analyzed sources.  Spec section 3: `is_overdue` holds
iff status is not completed, a due date exists, and the due date is strictly
before the current time. -/
def TaskRec.isOverdue (now : Int) (t : TaskRec) : Bool :=
  t.status != .completed &&
    (match t.dueDate with
     | some d => decide (d < now)
     | none => false)

/-- Snapshot of a project row. -/
structure ProjectRec where
  pid : Nat
  name : String
  memberIds : List Nat
  ownerId : Nat
  deadline : Option Int
deriving DecidableEq, Repr

/-- Snapshot of a budget row. -/
structure BudgetRec where
  projectId : Nat
  allocatedAmount : ℚ
  spentAmount : ℚ
  currency : String
deriving DecidableEq, Repr

/-- Modelled from the spec: `Budget.remaining_amount` from the `models`
module (absent from the analyzed sources); spec section 3:
remaining = allocated − spent. -/
def BudgetRec.remainingAmount (b : BudgetRec) : ℚ :=
  b.allocatedAmount - b.spentAmount

/-- Modelled from the spec: `Budget.utilization_percentage` from the `models`
module (absent from the analyzed sources); spec sections 3 and 8:
spent/allocated × 100, reported as 0 when allocated = 0. -/
def BudgetRec.utilizationPercentage (b : BudgetRec) : ℚ :=
  if b.allocatedAmount = 0 then 0 else b.spentAmount / b.allocatedAmount * 100

/-- Snapshot of an expense row. -/
structure ExpenseRec where
  eid : Nat
  projectId : Nat
  taskId : Option Nat
  amount : ℚ
  description : String
  category : Option String
  incurredAt : Int
  createdBy : Nat
deriving DecidableEq, Repr

/-- A budget-overrun notification: the recipient plus the numeric payload of
the message text (`_create_budget_overrun_notification`); the rendered
f-string is presentation. -/
structure NotificationRec where
  userId : Nat
  overrunAmount : ℚ
  overrunPct : ℚ
deriving DecidableEq, Repr

/-- The record store read by the services: a consistent snapshot of the
database plus the current instant (spec section 5). -/
structure Env where
  projects : List ProjectRec
  budgets : List BudgetRec
  expenses : List ExpenseRec
  tasks : List TaskRec
  notifications : List NotificationRec
  now : Int
  firstOfMonth : Int
deriving DecidableEq, Repr

/-- `Project.query.get_or_404(project_id)` hit: the first project row with
the given id. -/
def Env.findProject (env : Env) (pid : Nat) : Option ProjectRec :=
  env.projects.find? (fun p => p.pid == pid)

/-- `Budget.query.filter_by(project_id=...).first()`. -/
def Env.findBudget (env : Env) (pid : Nat) : Option BudgetRec :=
  env.budgets.find? (fun b => b.projectId == pid)

/-- `Expense.query.get_or_404(expense_id)` hit. -/
def Env.findExpense (env : Env) (eid : Nat) : Option ExpenseRec :=
  env.expenses.find? (fun e => e.eid == eid)

/-- `Expense.query.filter_by(project_id=...).all()`. -/
def Env.projectExpenses (env : Env) (pid : Nat) : List ExpenseRec :=
  env.expenses.filter (fun e => e.projectId == pid)

/-- `Task.query.filter_by(project_id=...).all()`. -/
def Env.projectTasks (env : Env) (pid : Nat) : List TaskRec :=
  env.tasks.filter (fun t => t.projectId == pid)

/-- `any(member.id == user_id for member in project.members)`. -/
def ProjectRec.isMember (p : ProjectRec) (uid : Nat) : Bool :=
  p.memberIds.contains uid

/-- `any(member.id == user_id for member in project.members) or
project.owner_id == user_id`, the membership test of `get_risk_assessment`
and of the three finance analytics operations. -/
def ProjectRec.isMemberOrOwner (p : ProjectRec) (uid : Nat) : Bool :=
  p.isMember uid || p.ownerId == uid

/-- Errors raised by the services: werkzeug `NotFound` (from `get_or_404`),
`PermissionError`, and Python `ZeroDivisionError`. -/
inductive Err
  | notFound
  | permission
  | zeroDivision
deriving DecidableEq, Repr

/-- Python division: raises `ZeroDivisionError` when the denominator is 0. -/
def pyDiv (a b : ℚ) : Except Err ℚ :=
  if b = 0 then .error .zeroDivision else .ok (a / b)

/-- Stable insertion of `x` into a list sorted descending by `key`,
placing `x` before later elements whose key it ties. -/
def insertDescBy {α β : Type} [LinearOrder β] (key : α → β) (x : α) :
    List α → List α
  | [] => [x]
  | y :: ys => if key y ≤ key x then x :: y :: ys else y :: insertDescBy key x ys

/-- Stable sort, descending by `key`: models Python
`sorted(..., key=..., reverse=True)` and `list.sort(..., reverse=True)`. -/
def sortDescBy {α β : Type} [LinearOrder β] (key : α → β) : List α → List α
  | [] => []
  | x :: xs => insertDescBy key x (sortDescBy key xs)

/-- Mean of a rational list, `np.mean`; the 0 default for the empty list is
never reached by the sources, which guard the length first. -/
def listMean (l : List ℚ) : ℚ :=
  if l.length = 0 then 0 else l.sum / (l.length : ℚ)

/-- Population variance of a rational list, `np.var`. -/
def listVariancePop (l : List ℚ) : ℚ :=
  listMean (l.map (fun x => (x - listMean l) ^ 2))

/-- Ordinary least-squares slope of `ys` against x = 0, 1, ..., n−1,
returning 0 when the denominator vanishes
(`finance_service.py` lines 545-554, `analytics_service.py` lines 653-663). -/
def olsSlope (ys : List ℚ) : ℚ :=
  let n : ℚ := (ys.length : ℚ)
  let xs : List ℚ := (List.range ys.length).map (fun i => (i : ℚ))
  let sumX := xs.sum
  let sumY := ys.sum
  let sumXY := ((xs.zip ys).map (fun p => p.1 * p.2)).sum
  let sumX2 := (xs.map (fun x => x * x)).sum
  let d := n * sumX2 - sumX * sumX
  if d = 0 then 0 else (n * sumXY - sumX * sumY) / d

/-- `tasks.filter(status == completed)`. -/
def completedOf (tasks : List TaskRec) : List TaskRec :=
  tasks.filter (fun t => t.status == .completed)

/-- A completed task counted as on time by `get_project_health`: both a due
date and a completion timestamp exist and completion ≤ due. -/
def onTimePred (t : TaskRec) : Bool :=
  match t.dueDate, t.lastProgressUpdate with
  | some d, some c => decide (c ≤ d)
  | _, _ => false

/-- One iteration of the on-time / delay accumulation loop of
`get_project_health` (`analytics_service.py` lines 193-202): when both a due
date and a completion timestamp exist, count the task on time if completion
≤ due, otherwise accumulate the delay `(completion − due).days`; tasks
missing either field touch neither accumulator. -/
def onTimeStep (acc : Nat × Int) (t : TaskRec) : Nat × Int :=
  match t.dueDate, t.lastProgressUpdate with
  | some d, some c => if c ≤ d then (acc.1 + 1, acc.2) else (acc.1, acc.2 + (c - d))
  | _, _ => acc

/-- The on-time / delay accumulation loop of `get_project_health`
(lines 190-202) over the completed tasks. -/
def onTimeAndDelays (completed : List TaskRec) : Nat × Int :=
  completed.foldl onTimeStep (0, 0)

/-- Tasks counted on time by the `get_project_health` loop. -/
def onTimeCount (tasks : List TaskRec) : Nat :=
  ((completedOf tasks).filter onTimePred).length

/-- A bottleneck entry of `get_project_health` (lines 208-216). -/
structure BottleneckRec where
  tid : Nat
  title : String
  subtaskCount : Nat
  daysOverdue : Int
deriving DecidableEq, Repr

/-- Result record of `get_project_health`.  The zero-task early return of the
source omits the `completed_tasks` and `overdue_tasks` keys; here they are 0
in that case. -/
structure HealthResult where
  totalTasks : Nat
  completedTasks : Nat
  overdueTasks : Nat
  overduePercentage : ℚ
  onTimeCompletionRate : ℚ
  averageDelayDays : ℚ
  healthScore : ℚ
  status : String
  bottleneckTasks : List BottleneckRec
deriving DecidableEq, Repr

/-- Health status label (`analytics_service.py` lines 226-231). -/
def healthStatus (score : ℚ) : String :=
  if score ≥ 80 then "healthy" else if score ≥ 60 then "warning" else "critical"

/-- The health-score formula of `analytics_service.py` line 223, abstracted
over its two inputs: `max(0, 100 − overdue_percentage*2 − (100 −
on_time_rate)*0.5)`. -/
def healthFormula (overduePct onTimeRate : ℚ) : ℚ :=
  max 0 (100 - overduePct * 2 - (100 - onTimeRate) * (1 / 2))

/-- `clamp(lo, hi, x)`. -/
def clamp (lo hi x : ℚ) : ℚ := max lo (min hi x)

/-- Core computation of `get_project_health` (lines 171-243), a function of
the project task set and the current instant. -/
def healthCore (tasks : List TaskRec) (now : Int) : HealthResult :=
  if tasks.isEmpty then
    { totalTasks := 0, completedTasks := 0, overdueTasks := 0,
      overduePercentage := 0, onTimeCompletionRate := 100,
      averageDelayDays := 0, healthScore := 100, status := "healthy",
      bottleneckTasks := [] }
  else
    let totalTasks := tasks.length
    let overdueTasks := tasks.filter (TaskRec.isOverdue now)
    let completedTasks := completedOf tasks
    let otd := onTimeAndDelays completedTasks
    let onTimeRate : ℚ :=
      if completedTasks.isEmpty then 100
      else (otd.1 : ℚ) / (completedTasks.length : ℚ) * 100
    let lateCount : Int := (completedTasks.length : Int) - (otd.1 : Int)
    let avgDelay : ℚ :=
      if 0 < lateCount then (otd.2 : ℚ) / (lateCount : ℚ) else 0
    let bottlenecks :=
      (tasks.filter (fun t => t.subtaskCount != 0 && t.isOverdue now)).map
        (fun t =>
          ({ tid := t.tid, title := t.title, subtaskCount := t.subtaskCount,
             daysOverdue := match t.dueDate with | some d => now - d | none => 0 } :
            BottleneckRec))
    let overduePct : ℚ := (overdueTasks.length : ℚ) / (totalTasks : ℚ) * 100
    let score : ℚ := healthFormula overduePct onTimeRate
    { totalTasks := totalTasks,
      completedTasks := completedTasks.length,
      overdueTasks := overdueTasks.length,
      overduePercentage := overduePct,
      onTimeCompletionRate := onTimeRate,
      averageDelayDays := avgDelay,
      healthScore := score,
      status := healthStatus score,
      bottleneckTasks :=
        (sortDescBy (fun b => (b.subtaskCount : Int) * b.daysOverdue) bottlenecks).take 5 }

/-- `AnalyticsService.get_project_health` (lines 155-243): look the project
up (`get_or_404`), require membership (members only, the owner is not
checked here), then run the core computation on the project's tasks. -/
def get_project_health (env : Env) (projectId userId : Nat) :
    Except Err HealthResult :=
  match env.findProject projectId with
  | none => .error .notFound
  | some p =>
    if p.isMember userId then .ok (healthCore (env.projectTasks projectId) env.now)
    else .error .permission

/-- Refinement reference for claim C2, written from the spec sentence for
`on_time_rate` (spec section 4.3): among completed tasks having both a due
date and a completion timestamp, the fraction completed at or before the due
date, as a percentage.  The spec leaves the empty denominator unspecified;
100 is used here and the theorems only evaluate nonempty denominators. -/
def completedWithBothFields (tasks : List TaskRec) : List TaskRec :=
  tasks.filter (fun t =>
    t.status == .completed && t.dueDate.isSome && t.lastProgressUpdate.isSome)

/-- Refinement reference for claim C2 (see `completedWithBothFields`). -/
def spec_onTimeRate (tasks : List TaskRec) : ℚ :=
  let denom := completedWithBothFields tasks
  if denom.isEmpty then 100
  else ((denom.filter onTimePred).length : ℚ) / (denom.length : ℚ) * 100

/-- Weekly bucket membership test of `get_productivity_metrics`
(lines 59-64): a task is counted when it is completed, has a last-progress
timestamp, and that timestamp lies in the closed interval
[week_start, week_end]. -/
def weekPred (wstart wend : Int) (t : TaskRec) : Bool :=
  t.status == .completed &&
    (match t.lastProgressUpdate with
     | some u => decide (wstart ≤ u) && decide (u ≤ wend)
     | none => false)

/-- Bucket `i` of the weekly series (before the chronological reversal):
week_start = now − (i+1) weeks, week_end = now − i weeks, labelled by its
start instant. -/
def weekBucket (tasks : List TaskRec) (now : Int) (i : Nat) : Int × Nat :=
  let wstart := now - 7 * ((i : Int) + 1)
  let wend := now - 7 * (i : Int)
  (wstart, (tasks.filter (weekPred wstart wend)).length)

/-- The `tasks_completed_per_week` series of `get_productivity_metrics`
(lines 54-71): 12 weekly buckets, reversed into chronological order. -/
def weekData (tasks : List TaskRec) (now : Int) : List (Int × Nat) :=
  ((List.range 12).map (weekBucket tasks now)).reverse

/-- Result record of `get_productivity_metrics`. -/
structure ProductivityResult where
  totalTasks : Nat
  completedTasks : Nat
  inProgressTasks : Nat
  pendingTasks : Nat
  overdueTasks : Nat
  completionRate : ℚ
  avgCompletionTimeDays : ℚ
  tasksCompletedPerWeek : List (Int × Nat)
deriving DecidableEq, Repr

/-- `AnalyticsService.get_productivity_metrics` (lines 17-82).  `projectId =
none` models the absent / falsy `project_id` argument.  The average
completion time uses `now − created_at` exactly as the source does (the spec
flags this as a likely defect; no claim covers it). -/
def get_productivity_metrics (env : Env) (userId : Nat) (projectId : Option Nat) :
    ProductivityResult :=
  let tasks := (env.tasks.filter (fun t => t.ownerId == userId)).filter
    (fun t => match projectId with | some pid => t.projectId == pid | none => true)
  let totalTasks := tasks.length
  let completed := tasks.filter (fun t => t.status == .completed)
  let inProgress := tasks.filter (fun t => t.status == .inProgress)
  let pending := tasks.filter (fun t => t.status == .pending)
  let overdue := tasks.filter (TaskRec.isOverdue env.now)
  let completionRate : ℚ :=
    if 0 < totalTasks then (completed.length : ℚ) / (totalTasks : ℚ) * 100 else 0
  let times := (tasks.filter (fun t => t.status == .completed && t.createdAt.isSome)).map
    (fun t => env.now - t.createdAt.getD 0)
  let avgTime : ℚ :=
    if times.isEmpty then 0 else ((times.sum : Int) : ℚ) / (times.length : ℚ)
  { totalTasks := totalTasks, completedTasks := completed.length,
    inProgressTasks := inProgress.length, pendingTasks := pending.length,
    overdueTasks := overdue.length, completionRate := completionRate,
    avgCompletionTimeDays := avgTime,
    tasksCompletedPerWeek := weekData tasks env.now }

/-- Monthly bucket membership test shared by `get_resource_utilization`
(lines 128-131) and the monthly variance loop of
`get_budget_variance_analysis` (line 423): the expense's timestamp lies in
the closed interval [month_start, month_end]. -/
def monthPredE (mstart mend : Int) (e : ExpenseRec) : Bool :=
  decide (mstart ≤ e.incurredAt) && decide (e.incurredAt ≤ mend)

/-- Monthly expense bucket `i` of `get_resource_utilization` (before the
chronological reversal): month_start = firstOfMonth − 30·i days, month_end =
month_start + 30 days, labelled by its start instant. -/
def monthBucketE (expenses : List ExpenseRec) (firstOfMonth : Int) (i : Nat) :
    Int × ℚ :=
  let mstart := firstOfMonth - 30 * (i : Int)
  let mend := mstart + 30
  (mstart, ((expenses.filter (monthPredE mstart mend)).map (fun e => e.amount)).sum)

/-- The `monthly_expenses` series of `get_resource_utilization`
(lines 122-138): 12 monthly buckets, reversed into chronological order. -/
def monthlyExpenseData (expenses : List ExpenseRec) (firstOfMonth : Int) :
    List (Int × ℚ) :=
  ((List.range 12).map (monthBucketE expenses firstOfMonth)).reverse

/-- Dictionary accumulation `d[k] = d.get(k, 0) + amt`, preserving key
insertion order. -/
def addToKeyedTotals (acc : List (String × ℚ)) (cat : String) (amt : ℚ) :
    List (String × ℚ) :=
  match acc with
  | [] => [(cat, amt)]
  | kv :: rest =>
    if kv.1 == cat then (kv.1, kv.2 + amt) :: rest
    else kv :: addToKeyedTotals rest cat amt

/-- Expense totals grouped by category with a default for a missing
category (`expense.category or defaultCat`; the empty-string falsy edge of
`or` is not modelled, categories here are absent or nonempty). -/
def categoryTotals (expenses : List ExpenseRec) (defaultCat : String) :
    List (String × ℚ) :=
  expenses.foldl (fun acc e => addToKeyedTotals acc (e.category.getD defaultCat) e.amount) []

/-- The `budget` sub-record of `get_resource_utilization` (lines 106-114). -/
structure BudgetData where
  allocatedAmount : ℚ
  spentAmount : ℚ
  remainingAmount : ℚ
  utilizationPercentage : ℚ
  isOverBudget : Bool
deriving DecidableEq, Repr

/-- Result record of `get_resource_utilization`; `budget = none` models the
empty `budget_data` dict. -/
structure ResourceResult where
  budget : Option BudgetData
  totalExpenses : ℚ
  expensesByCategory : List (String × ℚ)
  monthlyExpenses : List (Int × ℚ)
  costPerCompletedTask : ℚ
  expensesCount : Nat
deriving DecidableEq, Repr

/-- `AnalyticsService.get_resource_utilization` (lines 85-152): project
lookup, members-only check, then the utilization payload. -/
def get_resource_utilization (env : Env) (projectId userId : Nat) :
    Except Err ResourceResult :=
  match env.findProject projectId with
  | none => .error .notFound
  | some p =>
    if p.isMember userId then
      let budget := env.findBudget projectId
      let expenses := env.projectExpenses projectId
      let tasks := env.projectTasks projectId
      let budgetData := budget.map (fun b =>
        ({ allocatedAmount := b.allocatedAmount, spentAmount := b.spentAmount,
           remainingAmount := b.remainingAmount,
           utilizationPercentage := b.utilizationPercentage,
           isOverBudget := decide (b.spentAmount > b.allocatedAmount) } : BudgetData))
      let completedTasks := tasks.filter (fun t => t.status == .completed)
      let totalExpenses := (expenses.map (fun e => e.amount)).sum
      let costPerTask : ℚ :=
        if completedTasks.isEmpty then 0
        else totalExpenses / (completedTasks.length : ℚ)
      .ok { budget := budgetData,
            totalExpenses := totalExpenses,
            expensesByCategory := categoryTotals expenses "Uncategorized",
            monthlyExpenses := monthlyExpenseData expenses env.firstOfMonth,
            costPerCompletedTask := costPerTask,
            expensesCount := expenses.length }
    else .error .permission

/-- A risk factor of `get_risk_assessment`: type, severity and the 0-100
display impact; the f-string message is presentation. -/
structure RiskFactor where
  ftype : String
  severity : String
  impact : Nat
deriving DecidableEq, Repr

/-- Deadline risk family of `get_risk_assessment` (lines 503-534).  The
whole family, the overdue-ratio check included, is nested under
`if project.deadline:`; the three branches are mutually exclusive and yield
the fired factor together with the points it adds to the risk score. -/
def deadlineFamily (p : ProjectRec) (tasks : List TaskRec) (now : Int) :
    List RiskFactor × Nat :=
  match p.deadline with
  | none => ([], 0)
  | some dl =>
    let daysTo := dl - now
    let incomplete := tasks.filter (fun t => t.status != .completed)
    let overdue := tasks.filter (TaskRec.isOverdue now)
    if daysTo ≤ 0 then
      ([{ ftype := "deadline", severity := "critical", impact := 90 }], 40)
    else if daysTo ≤ 7 ∧ incomplete ≠ [] then
      ([{ ftype := "deadline", severity := "high", impact := 70 }], 30)
    else if (overdue.length : ℚ) > (tasks.length : ℚ) * (3 / 10) then
      ([{ ftype := "task_overdue", severity := "medium", impact := 50 }], 20)
    else ([], 0)

/-- Budget risk family of `get_risk_assessment` (lines 537-562). -/
def budgetFamily (budget : Option BudgetRec) : List RiskFactor × Nat :=
  match budget with
  | none => ([], 0)
  | some b =>
    let u := b.utilizationPercentage
    if u > 100 then ([{ ftype := "budget", severity := "critical", impact := 80 }], 35)
    else if u > 90 then ([{ ftype := "budget", severity := "high", impact := 60 }], 25)
    else if u > 75 then ([{ ftype := "budget", severity := "medium", impact := 40 }], 15)
    else ([], 0)

/-- Workload risk family of `get_risk_assessment` (lines 564-575);
`team_size = len(project.members) + 1` is always positive, so the source's
dead guard against a zero team size is not reproduced. -/
def workloadFamily (p : ProjectRec) (tasks : List TaskRec) : List RiskFactor × Nat :=
  let teamSize := p.memberIds.length + 1
  let perMember : ℚ := (tasks.length : ℚ) / (teamSize : ℚ)
  if perMember > 10 then ([{ ftype := "workload", severity := "medium", impact := 45 }], 15)
  else ([], 0)

/-- Velocity risk family of `get_risk_assessment` (lines 577-587). -/
def velocityFamily (tasks : List TaskRec) : List RiskFactor × Nat :=
  let rate : ℚ :=
    if tasks.isEmpty then 0
    else ((tasks.filter (fun t => t.status == .completed)).length : ℚ) /
      (tasks.length : ℚ) * 100
  if rate < 30 then ([{ ftype := "velocity", severity := "high", impact := 65 }], 25)
  else ([], 0)

/-- Additive rule-based accumulation capped at 100 (lines 501 and 590),
abstracted over the four family contributions. -/
def cappedScore (d b w v : Nat) : Nat := min (d + b + w + v) 100

/-- Risk level label (line 592). -/
def riskLevelOf (score : Nat) : String :=
  if score < 30 then "low"
  else if score < 60 then "medium"
  else if score < 80 then "high"
  else "critical"

/-- The fixed advisory strings of `_generate_risk_recommendations`
(lines 716-737) selected by one factor; emoji prefixes dropped
(presentation), distinctness preserved. -/
def riskRuleMsgs (f : RiskFactor) : List String :=
  if f.ftype == "deadline" && (f.severity == "critical" || f.severity == "high") then
    ["Prioritize critical tasks and consider deadline extension",
     "Consider adding team members or redistributing tasks"]
  else if f.ftype == "budget" && (f.severity == "critical" || f.severity == "high") then
    ["Review and optimize expenses immediately",
     "Implement stricter budget monitoring and approval processes"]
  else if f.ftype == "workload" then
    ["Redistribute tasks more evenly across team members",
     "Consider using task automation or outsourcing"]
  else if f.ftype == "velocity" then
    ["Focus on completing existing tasks before starting new ones",
     "Analyze blockers and remove impediments"]
  else []

/-- The affirmative fallback message of `_generate_risk_recommendations`. -/
def riskOnTrackMsg : String := "Project is on track - maintain current practices"

/-- `list(set(...))` over strings: only the set is significant (Python's
iteration order is unspecified); modelled as first-occurrence dedup. -/
def dedupStrings (l : List String) : List String :=
  l.foldl (fun acc s => if acc.contains s then acc else acc ++ [s]) []

/-- `AnalyticsService._generate_risk_recommendations` (lines 715-737). -/
def generateRiskRecommendations (riskFactors : List RiskFactor) : List String :=
  let recs := riskFactors.foldl (fun acc f => acc ++ riskRuleMsgs f) []
  let recs := if recs.isEmpty then [riskOnTrackMsg] else recs
  dedupStrings recs

/-- Result record of `get_risk_assessment`. -/
structure RiskResult where
  overallRiskScore : Nat
  riskLevel : String
  riskFactors : List RiskFactor
  recommendations : List String
deriving DecidableEq, Repr

/-- Core computation of `get_risk_assessment` (lines 496-599): evaluate the
four factor families, accumulate their points capped at 100, sort the fired
factors descending by display impact. -/
def riskCore (p : ProjectRec) (tasks : List TaskRec) (budget : Option BudgetRec)
    (now : Int) : RiskResult :=
  let d := deadlineFamily p tasks now
  let b := budgetFamily budget
  let w := workloadFamily p tasks
  let v := velocityFamily tasks
  let factors := d.1 ++ b.1 ++ w.1 ++ v.1
  let score := cappedScore d.2 b.2 w.2 v.2
  { overallRiskScore := score,
    riskLevel := riskLevelOf score,
    riskFactors := sortDescBy (fun f => (f.impact : Int)) factors,
    recommendations := generateRiskRecommendations factors }

/-- `AnalyticsService.get_risk_assessment` (lines 479-599): project lookup,
member-or-owner check, then the core computation. -/
def get_risk_assessment (env : Env) (projectId userId : Nat) :
    Except Err RiskResult :=
  match env.findProject projectId with
  | none => .error .notFound
  | some p =>
    if p.isMemberOrOwner userId then
      .ok (riskCore p (env.projectTasks projectId) (env.findBudget projectId) env.now)
    else .error .permission

/-- `AnalyticsService._generate_performance_recommendations`
(lines 740-759): note the absence of any fallback message, the returned list
is empty when no rule fires. -/
def generatePerformanceRecommendations (trend : String) (predictedRate : ℚ)
    (confidence : String) : List String :=
  let recs :=
    if trend == "declining" then
      ["Review current task prioritization and focus areas",
       "Identify and address potential blockers or distractions"]
    else if trend == "improving" then
      ["Great progress! Document successful practices for consistency"]
    else []
  let recs :=
    if predictedRate < 50 then
      recs ++ ["Consider reducing task complexity or breaking down larger tasks",
               "Implement time-blocking techniques for better focus"]
    else if predictedRate > 80 then
      recs ++ ["Excellent productivity! Consider taking on additional responsibilities"]
    else recs
  if confidence == "low" then
    recs ++ ["Build more consistent work patterns for better predictability"]
  else recs

/-- A fresh primary key for a new expense row. -/
def freshExpenseId (env : Env) : Nat :=
  (env.expenses.map (fun e => e.eid)).foldl max 0 + 1

/-- In-place mutation `budget.spent_amount += delta` of the first budget row
of the given project (`Budget.query.filter_by(project_id=...).first()`);
identity when no such budget exists. -/
def setBudgetSpent (budgets : List BudgetRec) (pid : Nat) (delta : ℚ) :
    List BudgetRec :=
  match budgets with
  | [] => []
  | b :: rest =>
    if b.projectId == pid then
      { b with spentAmount := b.spentAmount + delta } :: rest
    else b :: setBudgetSpent rest pid delta

/-- In-place field update of the first expense row with the given id. -/
def replaceExpense (expenses : List ExpenseRec) (eid : Nat) (e1 : ExpenseRec) :
    List ExpenseRec :=
  match expenses with
  | [] => []
  | e :: rest =>
    if e.eid == eid then e1 :: rest else e :: replaceExpense rest eid e1

/-- `db.session.delete` of the first expense row with the given id. -/
def removeExpense (expenses : List ExpenseRec) (eid : Nat) : List ExpenseRec :=
  match expenses with
  | [] => []
  | e :: rest => if e.eid == eid then rest else e :: removeExpense rest eid

/-- `FinanceService._create_budget_overrun_notification` (lines 144-178):
the overrun percentage is computed by an unguarded division by
`allocated_amount`, which is Python's `ZeroDivisionError` when the
allocation is 0; one notification per project member.  Email delivery is an
external side effect and is not modelled. -/
def createBudgetOverrunNotifications (p : ProjectRec) (b : BudgetRec) :
    Except Err (List NotificationRec) := do
  let overrun := b.spentAmount - b.allocatedAmount
  let q ← pyDiv overrun b.allocatedAmount
  let pct := q * 100
  .ok (p.memberIds.map (fun m =>
    ({ userId := m, overrunAmount := overrun, overrunPct := pct } : NotificationRec)))

/-- `FinanceService.add_expense` (lines 103-141): project lookup,
members-only check, create the expense, then `budget.spent_amount +=
expense.amount` when a budget exists, raising the overrun notification when
the new spent amount exceeds the allocation.  The `category` argument is the
value of `data.get('category', 'General')` (the caller-side dict access);
`incurred_at` defaults to the current instant (model default, absent from
the analyzed sources).  When the notification helper raises, the exception
escapes before `db.session.commit()`, so the uncommitted session is rolled
back and the state is unchanged. -/
def add_expense (env : Env) (userId projectId : Nat) (amount : ℚ)
    (category : Option String) (taskId : Option Nat) (description : String) :
    Except Err (Env × ExpenseRec) :=
  match env.findProject projectId with
  | none => .error .notFound
  | some p =>
    if p.isMember userId then
      let e : ExpenseRec :=
        { eid := freshExpenseId env, projectId := projectId, taskId := taskId,
          amount := amount, description := description, category := category,
          incurredAt := env.now, createdBy := userId }
      match env.findBudget projectId with
      | none => .ok ({ env with expenses := env.expenses ++ [e] }, e)
      | some b =>
        let newSpent := b.spentAmount + amount
        if newSpent > b.allocatedAmount then
          match createBudgetOverrunNotifications p { b with spentAmount := newSpent } with
          | .error err => .error err
          | .ok notes =>
            .ok ({ env with
                    expenses := env.expenses ++ [e],
                    budgets := setBudgetSpent env.budgets projectId amount,
                    notifications := env.notifications ++ notes }, e)
        else
          .ok ({ env with
                  expenses := env.expenses ++ [e],
                  budgets := setBudgetSpent env.budgets projectId amount }, e)
    else .error .permission

/-- The sequential field updates of `update_expense` (lines 303-310),
collapsed: each field is set when its key is present in `data` (the
nullable-value edge of present-but-None keys is not modelled); the
expense's id and project are never touched. -/
def applyExpenseUpdates (e0 : ExpenseRec) (newAmount : Option ℚ)
    (newDescription : Option String) (newCategory : Option String)
    (newTaskId : Option Nat) : ExpenseRec :=
  { e0 with
    amount := newAmount.getD e0.amount,
    description := newDescription.getD e0.description,
    category := match newCategory with | some c => some c | none => e0.category,
    taskId := match newTaskId with | some t => some t | none => e0.taskId }

/-- `FinanceService.update_expense` (lines 281-319): expense lookup
(`get_or_404`), members-only check on the expense's project, field updates
for the keys present in `data`, then
`budget.spent_amount += new_amount − old_amount` when a budget exists. -/
def update_expense (env : Env) (userId expenseId : Nat) (newAmount : Option ℚ)
    (newDescription : Option String) (newCategory : Option String)
    (newTaskId : Option Nat) : Except Err (Env × ExpenseRec) :=
  match env.findExpense expenseId with
  | none => .error .notFound
  | some e0 =>
    match env.findProject e0.projectId with
    | none => .error .notFound
    | some p =>
      if p.isMember userId then
        let e1 := applyExpenseUpdates e0 newAmount newDescription newCategory newTaskId
        let diff := e1.amount - e0.amount
        let budgets1 :=
          match env.findBudget e0.projectId with
          | some _ => setBudgetSpent env.budgets e0.projectId diff
          | none => env.budgets
        .ok ({ env with
                expenses := replaceExpense env.expenses expenseId e1,
                budgets := budgets1 }, e1)
      else .error .permission

/-- `FinanceService.delete_expense` (lines 322-346): expense lookup,
members-only check, `budget.spent_amount -= expense.amount` when a budget
exists, then delete the row. -/
def delete_expense (env : Env) (userId expenseId : Nat) : Except Err Env :=
  match env.findExpense expenseId with
  | none => .error .notFound
  | some e0 =>
    match env.findProject e0.projectId with
    | none => .error .notFound
    | some p =>
      if p.isMember userId then
        .ok { env with
               expenses := removeExpense env.expenses expenseId,
               budgets := setBudgetSpent env.budgets e0.projectId (-(e0.amount)) }
      else .error .permission

/-- Sum of the amounts of the expenses of a project within a row list. -/
def expensesSum (es : List ExpenseRec) (pid : Nat) : ℚ :=
  ((es.filter (fun e => e.projectId == pid)).map (fun e => e.amount)).sum

/-- Sum of the amounts of a project's expenses. -/
def spentSum (env : Env) (pid : Nat) : ℚ :=
  expensesSum env.expenses pid

/-- The implicit finance invariant (claim C10): whenever a project has a
budget, its running `spent_amount` equals the sum of the project's expense
amounts. -/
def spentConsistent (env : Env) (pid : Nat) : Prop :=
  ∀ b, env.findBudget pid = some b → b.spentAmount = spentSum env pid

/-- Per-category variance entry of `get_budget_variance_analysis`
(lines 400-413). -/
structure CategoryVariance where
  category : String
  planned : ℚ
  actual : ℚ
  variance : ℚ
  variancePct : ℚ
  expenseCount : Nat
deriving DecidableEq, Repr

/-- Monthly variance entry of `get_budget_variance_analysis`
(lines 430-436), labelled by the bucket start instant. -/
structure MonthVariance where
  monthStart : Int
  planned : ℚ
  actual : ℚ
  variance : ℚ
  variancePct : ℚ
deriving DecidableEq, Repr

/-- Cost driver entry of `get_budget_variance_analysis` (lines 446-457). -/
structure CostDriver where
  category : String
  variance : ℚ
  variancePct : ℚ
  impact : String
deriving DecidableEq, Repr

/-- Result record of `get_budget_variance_analysis`; `message` is present
only in the no-budget and error payloads. -/
structure VarianceResult where
  hasBudget : Bool
  message : Option String
  budgetAmount : ℚ
  totalSpent : ℚ
  totalVariance : ℚ
  variancePercentage : ℚ
  categoryAnalysis : List CategoryVariance
  monthlyVariance : List MonthVariance
  costDrivers : List CostDriver
  status : String
  recommendations : List String
deriving DecidableEq, Repr

/-- The no-budget payload of `get_budget_variance_analysis`
(lines 371-384). -/
def varianceNoBudget : VarianceResult :=
  { hasBudget := false, message := some "No budget defined for this project",
    budgetAmount := 0, totalSpent := 0, totalVariance := 0,
    variancePercentage := 0, categoryAnalysis := [], monthlyVariance := [],
    costDrivers := [], status := "no_budget",
    recommendations := ["Create a budget for this project to enable variance analysis"] }

/-- The safe default payload returned by the `except Exception` handler of
`get_budget_variance_analysis` (lines 471-486); the interpolated `str(e)` of
the message is presentation. -/
def varianceErrorPayload : VarianceResult :=
  { hasBudget := false, message := some "Error analyzing budget variance",
    budgetAmount := 0, totalSpent := 0, totalVariance := 0,
    variancePercentage := 0, categoryAnalysis := [], monthlyVariance := [],
    costDrivers := [], status := "error",
    recommendations := ["Please try again or contact support if the issue persists"] }

/-- The distinct expense categories (lines 389-396): the set of
`expense.category or 'General'`, defaulting to the singleton General set
when empty; Python's set iteration order is unspecified, modelled as
first-occurrence order. -/
def distinctCategories (expenses : List ExpenseRec) : List String :=
  let cats := expenses.foldl
    (fun acc e =>
      let c := e.category.getD "General"
      if acc.contains c then acc else acc ++ [c])
    []
  if cats.isEmpty then ["General"] else cats

/-- The per-category actual-versus-planned analysis (lines 398-413): the
allocation is split evenly across the distinct categories, variance% guarded
to 0 when the planned amount is not positive. -/
def categoryVariances (expenses : List ExpenseRec) (allocated : ℚ) :
    List CategoryVariance :=
  let cats := distinctCategories expenses
  let planned : ℚ := if cats.length ≠ 0 then allocated / (cats.length : ℚ) else 0
  cats.map (fun c =>
    let catExpenses := expenses.filter (fun e => e.category.getD "General" == c)
    let actual := (catExpenses.map (fun e => e.amount)).sum
    { category := c, planned := planned, actual := actual,
      variance := actual - planned,
      variancePct := if planned > 0 then (actual - planned) / planned * 100 else 0,
      expenseCount := catExpenses.length })

/-- The monthly variance series of `get_budget_variance_analysis`
(lines 416-438): 6 monthly buckets of 30 days anchored at the first of the
current month, closed-interval membership, monthly baseline allocated/12,
reversed into chronological order. -/
def monthVariances (expenses : List ExpenseRec) (allocated : ℚ)
    (firstOfMonth : Int) : List MonthVariance :=
  ((List.range 6).map (fun i =>
    let mstart := firstOfMonth - 30 * (i : Int)
    let mend := mstart + 30
    let monthExpenses := expenses.filter (monthPredE mstart mend)
    let actual := (monthExpenses.map (fun e => e.amount)).sum
    let planned : ℚ := if allocated > 0 then allocated / 12 else 0
    ({ monthStart := mstart, planned := planned, actual := actual,
       variance := actual - planned,
       variancePct := if planned > 0 then (actual - planned) / planned * 100 else 0 } :
      MonthVariance))).reverse

/-- `FinanceService._get_variance_status` (lines 772-781). -/
def varianceStatus (vp : ℚ) : String :=
  if |vp| ≤ 5 then "on_track"
  else if |vp| ≤ 15 then "minor_variance"
  else if |vp| ≤ 30 then "significant_variance"
  else "critical_variance"

/-- Cost driver detection (lines 446-457): categories with |variance%| > 20,
impact high when > 50, sorted descending by absolute variance. -/
def costDriversOf (cats : List CategoryVariance) : List CostDriver :=
  sortDescBy (fun d => |d.variance|)
    ((cats.filter (fun c => decide (|c.variancePct| > (20 : ℚ)))).map (fun c =>
      ({ category := c.category, variance := c.variance,
         variancePct := c.variancePct,
         impact := if |c.variancePct| > (50 : ℚ) then "high" else "medium" } : CostDriver)))

/-- The affirmative fallback message of `_generate_variance_recommendations`. -/
def varianceOnTrackMsg : String :=
  "Budget variance within acceptable range - maintain current controls"

/-- `FinanceService._generate_variance_recommendations` (lines 803-823); the
`category_analysis` parameter of the source is unused by its body and is
dropped here; interpolated percentages are presentation. -/
def generateVarianceRecommendations (costDrivers : List CostDriver) (vp : ℚ) :
    List String :=
  let recs : List String :=
    if |vp| > 20 then
      ["Significant budget variance detected - immediate review required"]
    else []
  let recs := recs ++ (costDrivers.take 3).map (fun d =>
    if d.variance > 0 then "Monitor " ++ d.category ++ " spending - over plan"
    else d.category ++ " under budget - consider reallocating funds")
  let recs :=
    if vp > 10 then
      recs ++ ["Implement weekly budget reviews and approval processes",
               "Analyze each expense against project value and necessity"]
    else recs
  if recs.isEmpty then [varianceOnTrackMsg] else recs

/-- Core computation of `get_budget_variance_analysis` (lines 367-470),
inside the exception handler. -/
def varianceCore (budget : Option BudgetRec) (expenses : List ExpenseRec)
    (firstOfMonth : Int) : VarianceResult :=
  match budget with
  | none => varianceNoBudget
  | some b =>
    let cats := categoryVariances expenses b.allocatedAmount
    let months := monthVariances expenses b.allocatedAmount firstOfMonth
    let totalSpent := (expenses.map (fun e => e.amount)).sum
    let totalVariance := totalSpent - b.allocatedAmount
    let vp : ℚ :=
      if b.allocatedAmount > 0 then totalVariance / b.allocatedAmount * 100 else 0
    let drivers := costDriversOf cats
    { hasBudget := true, message := none,
      budgetAmount := b.allocatedAmount, totalSpent := totalSpent,
      totalVariance := totalVariance, variancePercentage := vp,
      categoryAnalysis := cats, monthlyVariance := months, costDrivers := drivers,
      status := varianceStatus vp,
      recommendations := generateVarianceRecommendations drivers vp }

/-- The body of the `try` block of `get_budget_variance_analysis`
(lines 360-470): project lookup (`get_or_404`), member-or-owner check, then
the core computation. -/
def get_budget_variance_analysis_inner (env : Env) (userId projectId : Nat) :
    Except Err VarianceResult :=
  match env.findProject projectId with
  | none => .error .notFound
  | some p =>
    if p.isMemberOrOwner userId then
      .ok (varianceCore (env.findBudget projectId) (env.projectExpenses projectId)
        env.firstOfMonth)
    else .error .permission

/-- `FinanceService.get_budget_variance_analysis` (lines 349-486): the whole
body, the permission check and project lookup included, runs inside
`try: ... except Exception:`, so every raised error — `PermissionError` and
the not-found abort included — is caught and converted into the safe default
payload with status "error". -/
def get_budget_variance_analysis (env : Env) (userId projectId : Nat) :
    VarianceResult :=
  match get_budget_variance_analysis_inner env userId projectId with
  | .ok r => r
  | .error _ => varianceErrorPayload

/-- A forecast point of `get_expense_forecasting` (lines 565-569), labelled
by the bucket start instant. -/
structure ForecastPoint where
  monthStart : Int
  predictedAmount : ℚ
  confidence : String
deriving DecidableEq, Repr

/-- The `budget_impact` sub-record of `get_expense_forecasting`
(lines 576-585). -/
structure BudgetImpact where
  remainingBudget : ℚ
  forecastVsRemaining : ℚ
  willExceedBudget : Bool
  projectedTotalSpending : ℚ
  projectedBudgetUtilization : ℚ
deriving DecidableEq, Repr

/-- A per-category forecast entry (lines 588-596). -/
structure CategoryForecast where
  category : String
  monthlyAverage : ℚ
  forecastTotal : ℚ
deriving DecidableEq, Repr

/-- Result record of `get_expense_forecasting`.  `dataPoints` and `message`
are present only in the unavailable and error payloads; the `historical_data`
sub-dict is flattened into `monthsAnalyzed`, `averageMonthlySpending`,
`trendDirection` and `trendRate`, zero-valued when it is the empty dict. -/
structure ForecastResult where
  forecastAvailable : Bool
  message : Option String
  dataPoints : Option Nat
  forecastPeriodMonths : Nat
  monthsAnalyzed : Nat
  averageMonthlySpending : ℚ
  trendDirection : String
  trendRate : ℚ
  forecastData : List ForecastPoint
  totalForecast : ℚ
  budgetImpact : Option BudgetImpact
  categoryForecasts : List CategoryForecast
  recommendations : List String
deriving DecidableEq, Repr

/-- The insufficient-data payload of `get_expense_forecasting`
(lines 511-523), carrying `data_points = len(expenses)`. -/
def forecastInsufficient (dataPoints forecastMonths : Nat) : ForecastResult :=
  { forecastAvailable := false,
    message := some "Insufficient historical data for forecasting (minimum 3 expenses required)",
    dataPoints := some dataPoints, forecastPeriodMonths := forecastMonths,
    monthsAnalyzed := 0, averageMonthlySpending := 0, trendDirection := "",
    trendRate := 0, forecastData := [], totalForecast := 0, budgetImpact := none,
    categoryForecasts := [],
    recommendations := ["Add more expenses to enable forecasting"] }

/-- The safe default payload returned by the `except Exception` handler of
`get_expense_forecasting` (lines 613-626), carrying `data_points = 0`. -/
def forecastErrorPayload (forecastMonths : Nat) : ForecastResult :=
  { forecastAvailable := false,
    message := some "Error generating expense forecast",
    dataPoints := some 0, forecastPeriodMonths := forecastMonths,
    monthsAnalyzed := 0, averageMonthlySpending := 0, trendDirection := "",
    trendRate := 0, forecastData := [], totalForecast := 0, budgetImpact := none,
    categoryForecasts := [],
    recommendations := ["Please try again or contact support if the issue persists"] }

/-- The month keys of a `defaultdict` grouped by `strftime('%Y-%m')`, in
insertion order (first occurrence per key). -/
def monthKeysOf (ym : Int → Int) (expenses : List ExpenseRec) : List Int :=
  expenses.foldl
    (fun acc e =>
      let k := ym e.incurredAt
      if acc.contains k then acc else acc ++ [k])
    []

/-- Total amount of the expenses falling in the month with key `k`. -/
def monthTotal (ym : Int → Int) (expenses : List ExpenseRec) (k : Int) : ℚ :=
  ((expenses.filter (fun e => ym e.incurredAt == k)).map (fun e => e.amount)).sum

/-- `list(monthly_expenses.values())` (lines 525-536): the historical
monthly aggregate amounts, one per distinct month key, in insertion order. -/
def historicalAmounts (ym : Int → Int) (expenses : List ExpenseRec) : List ℚ :=
  (monthKeysOf ym expenses).map (monthTotal ym expenses)

/-- `FinanceService._calculate_forecast_confidence` (lines 784-800).  The
source compares the coefficient of variation `sqrt(variance)/mean` against
0.2 and 0.5; with mean > 0 and variance ≥ 0, `sqrt(v)/m < c` holds iff
`v < c² · m²`, which is how the irrational square root is avoided here.
With mean ≤ 0 the source sets cv = 0, so both cv comparisons hold
trivially. -/
def forecastConfidence (hist : List ℚ) (slope : ℚ) : String :=
  if hist.length < 3 then "low"
  else
    let v := listVariancePop hist
    let m := listMean hist
    if m > 0 then
      if v < (1 / 25) * m ^ 2 ∧ |slope| < m * (1 / 10) then "high"
      else if v < (1 / 4) * m ^ 2 then "medium"
      else "low"
    else
      if |slope| < m * (1 / 10) then "high" else "medium"

/-- The numeric weight of a forecast point's confidence label used by
`_generate_forecast_recommendations` (lines 841-842). -/
def forecastConfidenceScore (f : ForecastPoint) : ℚ :=
  if f.confidence == "high" then 1
  else if f.confidence == "medium" then 6 / 10
  else 3 / 10

/-- `FinanceService._generate_forecast_recommendations` (lines 826-847):
note the absence of any fallback message, the returned list is empty when no
rule fires.  `np.mean` of the empty list is NaN and `NaN < 0.5` is false, so
the low-confidence message is only emitted for a nonempty forecast list;
interpolated amounts are presentation. -/
def generateForecastRecommendations (forecastData : List ForecastPoint)
    (budgetImpact : Option BudgetImpact) (trendSlope : ℚ) : List String :=
  let recs : List String :=
    match budgetImpact with
    | some bi =>
      if bi.willExceedBudget then
        ["Projected to exceed budget",
         "Consider reducing discretionary expenses or increasing budget"]
      else []
    | none => []
  let recs :=
    if trendSlope > 100 then
      recs ++ ["Expenses trending upward - review spending drivers",
               "Implement stricter expense approval thresholds"]
    else if trendSlope < -50 then
      recs ++ ["Expenses trending downward - good cost control"]
    else recs
  if !forecastData.isEmpty ∧ listMean (forecastData.map forecastConfidenceScore) < 1 / 2 then
    recs ++ ["Forecast confidence is low - establish more consistent spending patterns"]
  else recs

/-- The forecast-producing branch of `get_expense_forecasting`
(lines 525-612), reached when at least 3 expenses exist. -/
def forecastMain (ym : Int → Int) (expenses : List ExpenseRec)
    (budget : Option BudgetRec) (firstOfMonth : Int) (forecastMonths : Nat) :
    ForecastResult :=
  let hist := historicalAmounts ym expenses
  let avgMonthly : ℚ :=
    if hist.length < 2 then (match hist with | a :: _ => a | [] => 0)
    else listMean hist
  let slope : ℚ := if hist.length < 2 then 0 else olsSlope hist
  let fdata := (List.range forecastMonths).map (fun i =>
    ({ monthStart := firstOfMonth + 30 * (i : Int),
       predictedAmount := max 0 (avgMonthly + slope * ((hist.length : ℚ) + (i : ℚ))),
       confidence := forecastConfidence hist slope } : ForecastPoint))
  let totalForecast := (fdata.map (fun f => f.predictedAmount)).sum
  let currentSpent := (expenses.map (fun e => e.amount)).sum
  let projectedTotal := currentSpent + totalForecast
  let bImpact := budget.map (fun b =>
    let remaining := b.allocatedAmount - currentSpent
    ({ remainingBudget := remaining,
       forecastVsRemaining := totalForecast - remaining,
       willExceedBudget := decide (totalForecast > remaining),
       projectedTotalSpending := projectedTotal,
       projectedBudgetUtilization :=
         if b.allocatedAmount > (0 : ℚ) then projectedTotal / b.allocatedAmount * 100
         else (0 : ℚ) } : BudgetImpact))
  let catKeys := expenses.foldl
    (fun acc e =>
      let c := e.category.getD "General"
      if acc.contains c then acc else acc ++ [c])
    ([] : List String)
  let catForecasts := catKeys.filterMap (fun c =>
    let amounts := historicalAmounts ym (expenses.filter
      (fun e => e.category.getD "General" == c))
    if amounts.isEmpty then none
    else some ({ category := c, monthlyAverage := listMean amounts,
                 forecastTotal := listMean amounts * (forecastMonths : ℚ) } :
      CategoryForecast))
  { forecastAvailable := true, message := none, dataPoints := none,
    forecastPeriodMonths := forecastMonths,
    monthsAnalyzed := hist.length,
    averageMonthlySpending := avgMonthly,
    trendDirection :=
      if slope > 5 then "increasing"
      else if slope < -5 then "decreasing"
      else "stable",
    trendRate := slope,
    forecastData := fdata, totalForecast := totalForecast,
    budgetImpact := bImpact, categoryForecasts := catForecasts,
    recommendations := generateForecastRecommendations fdata bImpact slope }

/-- Core computation of `get_expense_forecasting` inside the exception
handler (lines 508-612): the guard counts the raw expense rows
(`len(expenses) < 3`), not the monthly aggregate points. -/
def forecastCore (ym : Int → Int) (expenses : List ExpenseRec)
    (budget : Option BudgetRec) (firstOfMonth : Int) (forecastMonths : Nat) :
    ForecastResult :=
  if expenses.length < 3 then forecastInsufficient expenses.length forecastMonths
  else forecastMain ym expenses budget firstOfMonth forecastMonths

/-- The body of the `try` block of `get_expense_forecasting`
(lines 501-612): project lookup, member-or-owner check, then the core
computation. -/
def get_expense_forecasting_inner (env : Env) (ym : Int → Int)
    (userId projectId forecastMonths : Nat) : Except Err ForecastResult :=
  match env.findProject projectId with
  | none => .error .notFound
  | some p =>
    if p.isMemberOrOwner userId then
      .ok (forecastCore ym (env.projectExpenses projectId)
        (env.findBudget projectId) env.firstOfMonth forecastMonths)
    else .error .permission

/-- `FinanceService.get_expense_forecasting` (lines 489-626): the whole
body, the permission check and project lookup included, runs inside
`try: ... except Exception:`, so every raised error is caught and converted
into the safe default payload. -/
def get_expense_forecasting (env : Env) (ym : Int → Int)
    (userId projectId forecastMonths : Nat) : ForecastResult :=
  match get_expense_forecasting_inner env ym userId projectId forecastMonths with
  | .ok r => r
  | .error _ => forecastErrorPayload forecastMonths

/-- A concrete instantiation of the abstract year-month key for closed
evaluations: instants within one 30-day block share a month key (the closed
theorems only use it on expenses lying in a single calendar month). -/
def ymFdiv (t : Int) : Int := t.fdiv 30

/-- Concrete project for the authorization evaluations: members [2],
owner 3. -/
def pC1 : ProjectRec :=
  { pid := 1, name := "p", memberIds := [2], ownerId := 3, deadline := none }

/-- Environment for the authorization evaluations; user 9 is neither a
member nor the owner of project 1. -/
def envC1 : Env :=
  { projects := [pC1], budgets := [], expenses := [], tasks := [],
    notifications := [], now := 100, firstOfMonth := 91 }

/-- A completed task with both fields, finished before its due date. -/
def taskOnTime : TaskRec :=
  { tid := 1, title := "a", status := .completed, createdAt := some 0,
    dueDate := some 10, lastProgressUpdate := some 5, subtaskCount := 0,
    projectId := 1, ownerId := 2 }

/-- A completed task with a completion timestamp but no due date. -/
def taskNoDue : TaskRec :=
  { tid := 2, title := "b", status := .completed, createdAt := some 0,
    dueDate := none, lastProgressUpdate := some 3, subtaskCount := 0,
    projectId := 1, ownerId := 2 }

/-- Task set for the on-time-rate evaluation: one on-time completion with
both fields, one completed task missing its due date. -/
def tasksC2 : List TaskRec := [taskOnTime, taskNoDue]

/-- Concrete project for the on-time-rate evaluation: user 2 is a member. -/
def pC2 : ProjectRec :=
  { pid := 1, name := "p", memberIds := [2], ownerId := 2, deadline := none }

/-- Environment for the on-time-rate evaluation. -/
def envC2 : Env :=
  { projects := [pC2], budgets := [], expenses := [], tasks := tasksC2,
    notifications := [], now := 100, firstOfMonth := 91 }

/-- A completed task whose completion timestamp lies exactly on the shared
boundary of the two most recent weekly buckets (now = 0). -/
def taskC3 : TaskRec :=
  { tid := 1, title := "t", status := .completed, createdAt := some 0,
    dueDate := none, lastProgressUpdate := some (-7), subtaskCount := 0,
    projectId := 1, ownerId := 1 }

/-- An expense incurred exactly on the shared boundary of the two most
recent monthly buckets (firstOfMonth = 0). -/
def expC3 : ExpenseRec :=
  { eid := 1, projectId := 1, taskId := none, amount := 5, description := "",
    category := some "A", incurredAt := 0, createdBy := 1 }

/-- Three expenses of project 1, all inside one month. -/
def expensesC4 : List ExpenseRec :=
  [{ eid := 1, projectId := 1, taskId := none, amount := 10, description := "",
     category := some "A", incurredAt := 1, createdBy := 2 },
   { eid := 2, projectId := 1, taskId := none, amount := 20, description := "",
     category := some "A", incurredAt := 2, createdBy := 2 },
   { eid := 3, projectId := 1, taskId := none, amount := 30, description := "",
     category := some "A", incurredAt := 3, createdBy := 2 }]

/-- Environment for the forecasting-guard evaluation: three expenses in one
single calendar month. -/
def envC4 : Env :=
  { projects := [pC2], budgets := [], expenses := expensesC4, tasks := [],
    notifications := [], now := 50, firstOfMonth := 31 }

/-- Task builder for the overdue-ratio evaluation. -/
def mkTaskC5 (i : Nat) (st : TaskStatus) (due : Option Int) : TaskRec :=
  { tid := i, title := "t", status := st, createdAt := some 0, dueDate := due,
    lastProgressUpdate := none, subtaskCount := 0, projectId := 1, ownerId := 1 }

/-- Ten tasks: six completed, four overdue at now = 100 (ratio 0.4). -/
def tasksC5 : List TaskRec :=
  [mkTaskC5 1 .completed none, mkTaskC5 2 .completed none,
   mkTaskC5 3 .completed none, mkTaskC5 4 .completed none,
   mkTaskC5 5 .completed none, mkTaskC5 6 .completed none,
   mkTaskC5 7 .pending (some 50), mkTaskC5 8 .pending (some 50),
   mkTaskC5 9 .pending (some 50), mkTaskC5 10 .pending (some 50)]

/-- A project without any deadline; user 1 is a member. -/
def pC5 : ProjectRec :=
  { pid := 1, name := "p", memberIds := [1, 2, 3], ownerId := 9, deadline := none }

/-- Environment for the overdue-ratio evaluation: no deadline, 40% of the
tasks overdue. -/
def envC5 : Env :=
  { projects := [pC5], budgets := [], expenses := [], tasks := tasksC5,
    notifications := [], now := 100, firstOfMonth := 91 }

/-- A budget with a zero allocation. -/
def budgetC6 : BudgetRec :=
  { projectId := 1, allocatedAmount := 0, spentAmount := 0, currency := "USD" }

/-- Environment for the zero-allocation overrun evaluation: project 1 with
member 2 and a budget allocating 0. -/
def envC6 : Env :=
  { projects := [pC2], budgets := [budgetC6], expenses := [], tasks := [],
    notifications := [], now := 50, firstOfMonth := 31 }

/-- An existing expense of project 1 with amount 7. -/
def expC10 : ExpenseRec :=
  { eid := 5, projectId := 1, taskId := none, amount := 7, description := "",
    category := some "A", incurredAt := 10, createdBy := 2 }

/-- A budget whose spent amount (7) equals the project's expense total. -/
def budgetC10 : BudgetRec :=
  { projectId := 1, allocatedAmount := 1000, spentAmount := 7, currency := "USD" }

/-- Environment for the spent-amount invariant evaluation. -/
def envC10 : Env :=
  { projects := [pC2], budgets := [budgetC10], expenses := [expC10],
    tasks := [], notifications := [], now := 50, firstOfMonth := 31 }

/-- The expense row created by `add_expense envC10 2 1 3 (some "A") none "d"`. -/
def expC10new : ExpenseRec :=
  { eid := 6, projectId := 1, taskId := none, amount := 3, description := "d",
    category := some "A", incurredAt := 50, createdBy := 2 }

/-- The environment after `add_expense envC10 2 1 3 (some "A") none "d"`. -/
def envC10after : Env :=
  { projects := [pC2],
    budgets := [{ projectId := 1, allocatedAmount := 1000, spentAmount := 10,
                  currency := "USD" }],
    expenses := [expC10, expC10new], tasks := [], notifications := [],
    now := 50, firstOfMonth := 31 }

/-- A forecast point with high confidence, for the no-rule-fires
evaluation of the forecast recommendation generator. -/
def fpC9 : ForecastPoint :=
  { monthStart := 0, predictedAmount := 5, confidence := "high" }

/-! Helper lemmas about the embedded list operations. -/

theorem mem_insertDescBy {α β : Type} [LinearOrder β] (key : α → β) (x a : α)
    (l : List α) : a ∈ insertDescBy key x l ↔ a = x ∨ a ∈ l := by
  induction l with
  | nil => simp [insertDescBy]
  | cons y ys ih =>
    rw [insertDescBy]
    split
    · simp [List.mem_cons]
    · rw [List.mem_cons, ih, List.mem_cons]
      tauto

theorem mem_sortDescBy {α β : Type} [LinearOrder β] (key : α → β) (a : α)
    (l : List α) : a ∈ sortDescBy key l ↔ a ∈ l := by
  induction l with
  | nil => simp [sortDescBy]
  | cons x xs ih => rw [sortDescBy, mem_insertDescBy, ih, List.mem_cons]

theorem onTimeStep_fst (acc : Nat × Int) (t : TaskRec) :
    (onTimeStep acc t).1 = acc.1 + (if onTimePred t then 1 else 0) := by
  unfold onTimeStep onTimePred
  rcases t.dueDate with _ | d <;> rcases t.lastProgressUpdate with _ | c <;> simp
  split <;> simp

theorem foldl_onTimeStep_fst (l : List TaskRec) :
    ∀ acc : Nat × Int, (l.foldl onTimeStep acc).1 = acc.1 + (l.filter onTimePred).length := by
  induction l with
  | nil => simp
  | cons t ts ih =>
    intro acc
    rw [List.foldl_cons, List.filter_cons, ih]
    have h := onTimeStep_fst acc t
    by_cases hp : onTimePred t <;> simp [hp] at h ⊢ <;> omega

theorem onTimeAndDelays_fst (l : List TaskRec) :
    (onTimeAndDelays l).1 = (l.filter onTimePred).length := by
  rw [onTimeAndDelays, foldl_onTimeStep_fst]
  simp

theorem onTimeAndDelays_fst_le (l : List TaskRec) :
    (onTimeAndDelays l).1 ≤ l.length := by
  rw [onTimeAndDelays_fst]
  exact List.length_filter_le _ _

/-! Helper lemmas about the health scorer. -/

theorem healthFormula_nonneg (op otr : ℚ) : 0 ≤ healthFormula op otr :=
  le_max_left _ _

theorem healthFormula_le_100 (op otr : ℚ) (hop : 0 ≤ op) (hotr : otr ≤ 100) :
    healthFormula op otr ≤ 100 := by
  unfold healthFormula
  have h1 : 0 ≤ op * 2 := by linarith
  have h2 : 0 ≤ (100 - otr) * (1 / 2) := by linarith
  exact max_le (by norm_num) (by linarith)

theorem healthFormula_eq_clamp (op otr : ℚ) (hop : 0 ≤ op) (hotr : otr ≤ 100) :
    healthFormula op otr = clamp 0 100 (100 - op * 2 - (100 - otr) * (1 / 2)) := by
  unfold healthFormula clamp
  have h1 : 0 ≤ op * 2 := by linarith
  have h2 : 0 ≤ (100 - otr) * (1 / 2) := by linarith
  rw [min_eq_right (by linarith)]

theorem healthFormula_antitone_overdue (op1 op2 otr : ℚ) (h : op1 ≤ op2) :
    healthFormula op2 otr ≤ healthFormula op1 otr := by
  unfold healthFormula
  exact max_le_max le_rfl (by linarith)

theorem healthFormula_mono_onTime (op otr1 otr2 : ℚ) (h : otr1 ≤ otr2) :
    healthFormula op otr1 ≤ healthFormula op otr2 := by
  unfold healthFormula
  exact max_le_max le_rfl (by linarith)

theorem healthCore_score_formula (tasks : List TaskRec) (now : Int)
    (h : tasks ≠ []) :
    (healthCore tasks now).healthScore
      = healthFormula (healthCore tasks now).overduePercentage
          (healthCore tasks now).onTimeCompletionRate := by
  rcases tasks with _ | ⟨t, ts⟩
  · exact absurd rfl h
  · simp [healthCore]

theorem healthCore_overduePct_nonneg (tasks : List TaskRec) (now : Int) :
    0 ≤ (healthCore tasks now).overduePercentage := by
  rcases tasks with _ | ⟨t, ts⟩
  · simp [healthCore]
  · simp [healthCore]
    positivity

theorem healthCore_onTimeRate_le_100 (tasks : List TaskRec) (now : Int) :
    (healthCore tasks now).onTimeCompletionRate ≤ 100 := by
  rcases tasks with _ | ⟨t, ts⟩
  · simp [healthCore]
  · simp only [healthCore, List.isEmpty_cons, Bool.false_eq_true, if_false]
    split
    · exact le_refl _
    · rename_i hne
      have hlen : 0 < (completedOf (t :: ts)).length := by
        rcases hc : completedOf (t :: ts) with _ | _
        · rw [hc] at hne
          simp at hne
        · simp [hc]
      have hcnt : (onTimeAndDelays (completedOf (t :: ts))).1 ≤ (completedOf (t :: ts)).length :=
        onTimeAndDelays_fst_le _
      have hlenq : (0 : ℚ) < ((completedOf (t :: ts)).length : ℚ) := by
        exact_mod_cast hlen
      rw [div_mul_eq_mul_div, div_le_iff₀ hlenq]
      have hcq : ((onTimeAndDelays (completedOf (t :: ts))).1 : ℚ)
          ≤ ((completedOf (t :: ts)).length : ℚ) := by exact_mod_cast hcnt
      nlinarith

theorem healthCore_onTimeRate_eq (tasks : List TaskRec) (now : Int)
    (h : completedOf tasks ≠ []) :
    (healthCore tasks now).onTimeCompletionRate
      = (onTimeCount tasks : ℚ) / ((completedOf tasks).length : ℚ) * 100 := by
  have ht : tasks ≠ [] := by
    intro he
    rw [he] at h
    exact h rfl
  rcases tasks with _ | ⟨t, ts⟩
  · exact absurd rfl ht
  · simp only [healthCore, List.isEmpty_cons, Bool.false_eq_true, if_false]
    rw [if_neg (by simpa [List.isEmpty_iff] using h)]
    rw [onTimeAndDelays_fst]
    rfl

/-- C7: for every non-empty task set, the health score returned by
`get_project_health` equals `clamp(0, 100, 100 − overdue_percentage×2 −
(100 − on_time_rate)×0.5)`; it always lies in [0, 100], and the score
formula is monotonically non-increasing in the overdue percentage and in
`100 − on_time_rate` (equivalently, non-decreasing in the on-time rate). -/
theorem C7_health_score_clamped_monotone :
    ∀ (tasks : List TaskRec) (now : Int), tasks ≠ [] →
      ((healthCore tasks now).healthScore
          = clamp 0 100 (100 - (healthCore tasks now).overduePercentage * 2
              - (100 - (healthCore tasks now).onTimeCompletionRate) * (1 / 2))
        ∧ 0 ≤ (healthCore tasks now).healthScore
        ∧ (healthCore tasks now).healthScore ≤ 100)
      ∧ (healthCore tasks now).healthScore
          = healthFormula (healthCore tasks now).overduePercentage
              (healthCore tasks now).onTimeCompletionRate
      ∧ (∀ op1 op2 otr : ℚ, op1 ≤ op2 → healthFormula op2 otr ≤ healthFormula op1 otr)
      ∧ (∀ op otr1 otr2 : ℚ, otr1 ≤ otr2 → healthFormula op otr1 ≤ healthFormula op otr2) := by
  intro tasks now h
  have hs := healthCore_score_formula tasks now h
  have hop := healthCore_overduePct_nonneg tasks now
  have hotr := healthCore_onTimeRate_le_100 tasks now
  refine ⟨⟨?_, ?_, ?_⟩, hs, ?_, ?_⟩
  · rw [hs, healthFormula_eq_clamp _ _ hop hotr]
  · rw [hs]
    exact healthFormula_nonneg _ _
  · rw [hs]
    exact healthFormula_le_100 _ _ hop hotr
  · exact fun op1 op2 otr hle => healthFormula_antitone_overdue op1 op2 otr hle
  · exact fun op otr1 otr2 hle => healthFormula_mono_onTime op otr1 otr2 hle

/-- C7 witness: the theorem applied to a concrete one-task project. -/
theorem C7_witness :
    0 ≤ (healthCore [taskOnTime] 100).healthScore
      ∧ (healthCore [taskOnTime] 100).healthScore ≤ 100 :=
  ⟨(C7_health_score_clamped_monotone [taskOnTime] 100 (by decide)).1.2.1,
   (C7_health_score_clamped_monotone [taskOnTime] 100 (by decide)).1.2.2⟩

/-- C2 counterexample: a project whose tasks are one on-time completion
carrying both fields and one completed task without a due date.  The field
returned by `get_project_health` is 50 (the denominator is all completed
tasks), while the spec formula — which excludes completed tasks missing a
field from the denominator — gives 100, so the claim is false as stated. -/
theorem C2_counterexample :
    (get_project_health envC2 1 2).map (fun r => r.onTimeCompletionRate) = .ok 50
      ∧ spec_onTimeRate tasksC2 = 100
      ∧ (50 : ℚ) ≠ 100 := by
  exact ⟨by with_unfolding_all decide, by with_unfolding_all decide, by norm_num⟩

/-- C2 amended: the on-time completion rate returned by
`get_project_health` equals the number of on-time completions (completed
tasks with both fields, completed at or before the due date) divided by the
number of all completed tasks, as a percentage; completed tasks missing
either field stay in the denominator but are never counted on time. -/
theorem C2_on_time_rate_all_completed :
    ∀ (env : Env) (pid uid : Nat) (p : ProjectRec),
      env.findProject pid = some p → p.isMember uid = true →
      completedOf (env.projectTasks pid) ≠ [] →
      (get_project_health env pid uid).map (fun r => r.onTimeCompletionRate)
        = .ok ((onTimeCount (env.projectTasks pid) : ℚ)
            / ((completedOf (env.projectTasks pid)).length : ℚ) * 100) := by
  intro env pid uid p hp hm hc
  simp only [get_project_health, hp, hm, if_true, Except.map]
  rw [healthCore_onTimeRate_eq _ _ hc]

/-- C2 witness: the amended theorem applied to the concrete environment. -/
theorem C2_witness :
    (get_project_health envC2 1 2).map (fun r => r.onTimeCompletionRate)
      = .ok ((onTimeCount (envC2.projectTasks 1) : ℚ)
          / ((completedOf (envC2.projectTasks 1)).length : ℚ) * 100) :=
  C2_on_time_rate_all_completed envC2 1 2 pC2 (by decide) (by decide) (by decide)

/-- C3 counterexample: a single completed task whose progress timestamp is
`now − 7`, the shared boundary of the two most recent weekly buckets, is
counted in both of them, so the twelve weekly counts sum to 2 for one
record; likewise one expense on the monthly boundary is summed into two
monthly buckets of `get_resource_utilization` and of the monthly variance
series.  Under the claimed half-open `[bucket_start, bucket_end)` semantics
each sum would count the record exactly once. -/
theorem C3_counterexample :
    ((weekData [taskC3] 0).map (fun b => b.2)).sum = 2
      ∧ ((monthlyExpenseData [expC3] 0).map (fun b => b.2)).sum = 10
      ∧ ((monthVariances [expC3] 0 0).map (fun m => m.actual)).sum = 10
      ∧ expC3.amount = 5 := by
  exact ⟨by decide, by with_unfolding_all decide, by with_unfolding_all decide, rfl⟩

/-- C3 amended: every time bucket of the engine uses the closed interval
`[bucket_start, bucket_end]` on both ends; consequently a record whose
timestamp equals the shared boundary of two adjacent buckets is counted in
both of them (weekly completed-task buckets, monthly expense buckets, and
monthly variance buckets alike). -/
theorem C3_buckets_closed_intervals :
    (∀ (ws we : Int) (t : TaskRec),
      weekPred ws we t = true
        ↔ (t.status = .completed ∧ ∃ u, t.lastProgressUpdate = some u ∧ ws ≤ u ∧ u ≤ we))
    ∧ (∀ (ms me : Int) (e : ExpenseRec),
      monthPredE ms me e = true ↔ (ms ≤ e.incurredAt ∧ e.incurredAt ≤ me))
    ∧ (∀ (tasks : List TaskRec) (now : Int) (i : Nat),
      (weekBucket tasks now i).2
        = (tasks.filter (weekPred (now - 7 * ((i : Int) + 1)) (now - 7 * (i : Int)))).length)
    ∧ (∀ (t : TaskRec) (u now : Int) (i : Nat),
      t.status = .completed → t.lastProgressUpdate = some u →
      u = now - 7 * ((i : Int) + 1) →
      weekPred (now - 7 * ((i : Int) + 1)) (now - 7 * (i : Int)) t = true
        ∧ weekPred (now - 7 * (((i + 1 : Nat) : Int) + 1)) (now - 7 * ((i + 1 : Nat) : Int)) t = true)
    ∧ (∀ (e : ExpenseRec) (fom : Int) (i : Nat),
      e.incurredAt = fom - 30 * (i : Int) →
      monthPredE (fom - 30 * (i : Int)) (fom - 30 * (i : Int) + 30) e = true
        ∧ monthPredE (fom - 30 * ((i + 1 : Nat) : Int)) (fom - 30 * ((i + 1 : Nat) : Int) + 30) e = true) := by
  refine ⟨?_, ?_, ?_, ?_, ?_⟩
  · intro ws we t
    unfold weekPred
    rcases t.lastProgressUpdate with _ | u <;> simp
  · intro ms me e
    unfold monthPredE
    simp
  · intro tasks now i
    rfl
  · intro t u now i hst hlpu hu
    constructor <;> (unfold weekPred; rw [hlpu]; simp [hst]) <;> omega
  · intro e fom i he
    constructor <;> (unfold monthPredE; simp) <;> (rw [he]; omega)

/-- C3 witness: the amended theorem applied to the concrete boundary task. -/
theorem C3_witness :
    weekPred (0 - 7 * ((0 : Int) + 1)) (0 - 7 * (0 : Int)) taskC3 = true
      ∧ weekPred (0 - 7 * (((0 + 1 : Nat) : Int) + 1)) (0 - 7 * ((0 + 1 : Nat) : Int)) taskC3 = true :=
  C3_buckets_closed_intervals.2.2.2.1 taskC3 (-7) 0 0 (by decide) (by decide) (by decide)

/-- C5 counterexample: a project with no deadline, ten tasks of which four
are overdue (ratio 0.4 > 0.3).  `get_risk_assessment` reports no risk
factor at all — in particular no medium overdue-ratio factor — and a risk
score of 0, because the overdue-ratio check is nested under
`if project.deadline:`. -/
theorem C5_counterexample :
    pC5.deadline = none
      ∧ ((tasksC5.filter (TaskRec.isOverdue 100)).length : ℚ) > (tasksC5.length : ℚ) * (3 / 10)
      ∧ (get_risk_assessment envC5 1 1).map (fun r => r.riskFactors) = .ok []
      ∧ (get_risk_assessment envC5 1 1).map (fun r => r.overallRiskScore) = .ok 0 := by
  exact ⟨rfl, by with_unfolding_all decide, by with_unfolding_all decide,
    by with_unfolding_all decide⟩

/-- C5 amended: the overdue-ratio factor lives inside the deadline branch.
For a project that has a deadline on which neither deadline factor
triggered, an overdue ratio above 0.30 fires the medium 20-point
`task_overdue` factor, which then appears among the assessment's factors
and contributes exactly 20 points to the capped score; for a project
without a deadline the factor never fires. -/
theorem C5_overdue_ratio_needs_deadline :
    (∀ (p : ProjectRec) (tasks : List TaskRec) (now dl : Int),
      p.deadline = some dl → ¬(dl - now ≤ 0) →
      ¬(dl - now ≤ 7 ∧ tasks.filter (fun t => t.status != .completed) ≠ []) →
      ((tasks.filter (TaskRec.isOverdue now)).length : ℚ) > (tasks.length : ℚ) * (3 / 10) →
      deadlineFamily p tasks now
        = ([{ ftype := "task_overdue", severity := "medium", impact := 50 }], 20))
    ∧ (∀ (p : ProjectRec) (tasks : List TaskRec) (now : Int),
      p.deadline = none → deadlineFamily p tasks now = ([], 0))
    ∧ (∀ (p : ProjectRec) (tasks : List TaskRec) (budget : Option BudgetRec) (now dl : Int),
      p.deadline = some dl → ¬(dl - now ≤ 0) →
      ¬(dl - now ≤ 7 ∧ tasks.filter (fun t => t.status != .completed) ≠ []) →
      ((tasks.filter (TaskRec.isOverdue now)).length : ℚ) > (tasks.length : ℚ) * (3 / 10) →
      ({ ftype := "task_overdue", severity := "medium", impact := 50 } : RiskFactor)
          ∈ (riskCore p tasks budget now).riskFactors
        ∧ (riskCore p tasks budget now).overallRiskScore
            = cappedScore 20 (budgetFamily budget).2 (workloadFamily p tasks).2
                (velocityFamily tasks).2) := by
  have hfire : ∀ (p : ProjectRec) (tasks : List TaskRec) (now dl : Int),
      p.deadline = some dl → ¬(dl - now ≤ 0) →
      ¬(dl - now ≤ 7 ∧ tasks.filter (fun t => t.status != .completed) ≠ []) →
      ((tasks.filter (TaskRec.isOverdue now)).length : ℚ) > (tasks.length : ℚ) * (3 / 10) →
      deadlineFamily p tasks now
        = ([{ ftype := "task_overdue", severity := "medium", impact := 50 }], 20) := by
    intro p tasks now dl hdl h1 h2 h3
    simp only [deadlineFamily, hdl]
    rw [if_neg h1, if_neg h2, if_pos h3]
  refine ⟨hfire, ?_, ?_⟩
  · intro p tasks now hdl
    simp only [deadlineFamily, hdl]
  · intro p tasks budget now dl hdl h1 h2 h3
    have hd := hfire p tasks now dl hdl h1 h2 h3
    constructor
    · show _ ∈ (riskCore p tasks budget now).riskFactors
      simp only [riskCore]
      rw [mem_sortDescBy]
      simp only [hd, List.mem_append, List.mem_cons]
      tauto
    · simp only [riskCore, hd]

/-- C5 witness: the amended theorem applied to a concrete project with a
deadline, no imminent-deadline trigger, and an overdue ratio of 0.4. -/
theorem C5_witness :
    deadlineFamily { pC5 with deadline := some 130 } tasksC5 100
      = ([{ ftype := "task_overdue", severity := "medium", impact := 50 }], 20) :=
  C5_overdue_ratio_needs_deadline.1 { pC5 with deadline := some 130 } tasksC5 100 130
    rfl (by decide) (by with_unfolding_all decide) (by with_unfolding_all decide)

/-- C8: the overall risk score of `get_risk_assessment` is the sum of the
four factor families' fixed points capped at 100; each family is bounded by
its maximal points (40 / 35 / 15 / 25), the capped accumulation is
monotonically non-decreasing in every family's contribution, and the
uncapped maximum 40+35+15+25 = 115 exceeds the cap, which the capped score
never does. -/
theorem C8_risk_score_capped_additive :
    ∀ (p : ProjectRec) (tasks : List TaskRec) (budget : Option BudgetRec) (now : Int),
      (riskCore p tasks budget now).overallRiskScore
          = cappedScore (deadlineFamily p tasks now).2 (budgetFamily budget).2
              (workloadFamily p tasks).2 (velocityFamily tasks).2
        ∧ (riskCore p tasks budget now).overallRiskScore ≤ 100
        ∧ (deadlineFamily p tasks now).2 ≤ 40
        ∧ (budgetFamily budget).2 ≤ 35
        ∧ (workloadFamily p tasks).2 ≤ 15
        ∧ (velocityFamily tasks).2 ≤ 25
        ∧ (∀ d1 d2 b1 b2 w1 w2 v1 v2 : Nat, d1 ≤ d2 → b1 ≤ b2 → w1 ≤ w2 → v1 ≤ v2 →
            cappedScore d1 b1 w1 v1 ≤ cappedScore d2 b2 w2 v2)
        ∧ cappedScore 40 35 15 25 = 100
        ∧ 40 + 35 + 15 + 25 = 115 := by
  intro p tasks budget now
  refine ⟨rfl, Nat.min_le_right _ _, ?_, ?_, ?_, ?_, ?_, by decide, by decide⟩
  · unfold deadlineFamily
    rcases p.deadline with _ | dl <;> simp
    split_ifs <;> simp
  · unfold budgetFamily
    rcases budget with _ | b <;> simp
    split_ifs <;> simp
  · simp only [workloadFamily]
    split_ifs <;> simp
  · simp only [velocityFamily]
    split_ifs <;> simp
  · intro d1 d2 b1 b2 w1 w2 v1 v2 hd hb hw hv
    unfold cappedScore
    exact min_le_min (by omega) le_rfl

/-- C8 witness: the theorem applied to a concrete project. -/
theorem C8_witness :
    (riskCore pC5 tasksC5 none 100).overallRiskScore ≤ 100 :=
  (C8_risk_score_capped_additive pC5 tasksC5 none 100).2.1

/-- C9 counterexample: with a stable trend, a predicted rate between the
thresholds and non-low confidence, the performance recommendation generator
returns the empty list; the forecast recommendation generator likewise
returns the empty list when no rule fires, contradicting the claim that
every generator emits a single affirmative message. -/
theorem C9_counterexample :
    generatePerformanceRecommendations "stable" 60 "high" = []
      ∧ generateForecastRecommendations [fpC9] none 0 = [] := by
  exact ⟨by with_unfolding_all decide, by with_unfolding_all decide⟩

/-- C9 amended: the risk and variance generators do fall back to a single
affirmative on-track message when no rule fires; the performance and
forecast generators have no fallback and return the empty list when no rule
fires. -/
theorem C9_on_track_only_risk_variance :
    (∀ riskFactors : List RiskFactor, (∀ f ∈ riskFactors, riskRuleMsgs f = []) →
      generateRiskRecommendations riskFactors = [riskOnTrackMsg])
    ∧ (∀ vp : ℚ, |vp| ≤ 20 → vp ≤ 10 →
      generateVarianceRecommendations [] vp = [varianceOnTrackMsg])
    ∧ (∀ (rate : ℚ) (conf : String), ¬(rate < 50) → ¬(rate > 80) → conf ≠ "low" →
      generatePerformanceRecommendations "stable" rate conf = [])
    ∧ (∀ (fd : List ForecastPoint) (bi : Option BudgetImpact) (slope : ℚ),
      (bi = none ∨ ∃ b, bi = some b ∧ b.willExceedBudget = false) →
      ¬(slope > 100) → ¬(slope < -50) →
      (fd = [] ∨ ¬(listMean (fd.map forecastConfidenceScore) < 1 / 2)) →
      generateForecastRecommendations fd bi slope = []) := by
  refine ⟨?_, ?_, ?_, ?_⟩
  · intro factors hall
    have hfold : ∀ (l : List RiskFactor), (∀ f ∈ l, riskRuleMsgs f = []) →
        ∀ acc : List String, l.foldl (fun acc f => acc ++ riskRuleMsgs f) acc = acc := by
      intro l
      induction l with
      | nil => intro _ acc; rfl
      | cons f fs ih =>
        intro h acc
        rw [List.foldl_cons, h f (by simp), List.append_nil]
        exact ih (fun g hg => h g (by simp [hg])) acc
    unfold generateRiskRecommendations
    rw [hfold factors hall []]
    decide
  · intro vp h20 h10
    have h1 : ¬(|vp| > 20) := by push_neg; exact h20
    have h2 : ¬(vp > 10) := by push_neg; exact h10
    simp only [generateVarianceRecommendations, if_neg h1, if_neg h2, List.take_nil,
      List.map_nil, List.append_nil, List.nil_append]
    rfl
  · intro rate conf h50 h80 hconf
    unfold generatePerformanceRecommendations
    have hc : (conf == "low") = false := by
      simpa using hconf
    simp only [show (("stable" == "declining") = false) from rfl,
      show (("stable" == "improving") = false) from rfl, Bool.false_eq_true, if_false,
      if_neg h50, if_neg h80, hc]
  · intro fd bi slope hbi h100 h50 hmean
    have hcond : ¬((!fd.isEmpty) = true ∧ listMean (fd.map forecastConfidenceScore) < 1 / 2) := by
      rintro ⟨hne, hlt⟩
      rcases hmean with h | h
      · rw [h] at hne
        simp at hne
      · exact h hlt
    rcases hbi with h | ⟨b, hb, hw⟩
    · subst h
      simp only [generateForecastRecommendations, if_neg h100, if_neg h50, if_neg hcond,
        List.nil_append]
    · subst hb
      simp only [generateForecastRecommendations, hw, Bool.false_eq_true, if_false,
        if_neg h100, if_neg h50, if_neg hcond, List.nil_append]

/-- C9 witness: the amended theorem applied at concrete inputs. -/
theorem C9_witness :
    generateRiskRecommendations [] = [riskOnTrackMsg]
      ∧ generateVarianceRecommendations [] 0 = [varianceOnTrackMsg]
      ∧ generatePerformanceRecommendations "stable" 70 "medium" = []
      ∧ generateForecastRecommendations [] none 0 = [] :=
  ⟨C9_on_track_only_risk_variance.1 [] (by simp),
   C9_on_track_only_risk_variance.2.1 0 (by norm_num) (by norm_num),
   C9_on_track_only_risk_variance.2.2.1 70 "medium" (by norm_num) (by norm_num) (by decide),
   C9_on_track_only_risk_variance.2.2.2 [] none 0 (Or.inl rfl) (by norm_num) (by norm_num)
     (Or.inl rfl)⟩

/-- C6: evaluation of the failing input.  With a budget allocating 0 and a
member adding an expense of 100, `add_expense` pushes the spent amount over
the allocation, and `_create_budget_overrun_notification` divides the
overrun by `allocated_amount = 0`, raising `ZeroDivisionError` — the
division is not guarded, contradicting the claim (the spec's own
`utilization_percentage` guard, modelled in `BudgetRec.utilizationPercentage`,
shows the intended in-line guarding). -/
theorem C6_zero_allocation_division_raises :
    add_expense envC6 2 1 100 (some "General") none "d" = .error .zeroDivision
      ∧ budgetC6.allocatedAmount = 0
      ∧ budgetC6.utilizationPercentage = 0 := by
  exact ⟨by with_unfolding_all decide, rfl, by with_unfolding_all decide⟩

/-- C1 counterexample: invoking the finance analytics for user 9, who is
neither a member nor the owner of project 1, raises `PermissionError`
inside the `try` block, but both `get_budget_variance_analysis` and
`get_expense_forecasting` catch it and return a normal safe-default payload
instead of letting it propagate — contradicting the claim. -/
theorem C1_counterexample :
    pC1.isMemberOrOwner 9 = false
      ∧ get_budget_variance_analysis_inner envC1 9 1 = .error .permission
      ∧ get_budget_variance_analysis envC1 9 1 = varianceErrorPayload
      ∧ (get_budget_variance_analysis envC1 9 1).status = "error"
      ∧ get_expense_forecasting_inner envC1 ymFdiv 9 1 3 = .error .permission
      ∧ get_expense_forecasting envC1 ymFdiv 9 1 3 = forecastErrorPayload 3 := by
  exact ⟨by decide, by with_unfolding_all decide, by with_unfolding_all decide,
    by with_unfolding_all decide, by with_unfolding_all decide, by with_unfolding_all decide⟩

/-- C1 amended: among the analytics operations, authorization and
not-found errors propagate unmodified from `get_project_health`,
`get_resource_utilization` and `get_risk_assessment`, but in
`get_budget_variance_analysis` and `get_expense_forecasting` (and in
`get_cost_optimization_analysis`, which is written the same way but is
unparseable as committed) the blanket `except Exception` handler catches
them inside the engine and converts them into safe-default payloads. -/
theorem C1_errors_caught_in_finance_analytics :
    (∀ (env : Env) (uid pid : Nat) (p : ProjectRec),
      env.findProject pid = some p → p.isMemberOrOwner uid = false →
      get_budget_variance_analysis_inner env uid pid = .error .permission
        ∧ get_budget_variance_analysis env uid pid = varianceErrorPayload
        ∧ (∀ (ym : Int → Int) (fm : Nat),
            get_expense_forecasting_inner env ym uid pid fm = .error .permission)
        ∧ (∀ (ym : Int → Int) (fm : Nat),
            get_expense_forecasting env ym uid pid fm = forecastErrorPayload fm)
        ∧ get_project_health env pid uid = .error .permission
        ∧ get_resource_utilization env pid uid = .error .permission
        ∧ get_risk_assessment env pid uid = .error .permission)
    ∧ (∀ (env : Env) (uid pid : Nat),
      env.findProject pid = none →
      get_budget_variance_analysis_inner env uid pid = .error .notFound
        ∧ get_budget_variance_analysis env uid pid = varianceErrorPayload
        ∧ (∀ (ym : Int → Int) (fm : Nat),
            get_expense_forecasting_inner env ym uid pid fm = .error .notFound)
        ∧ (∀ (ym : Int → Int) (fm : Nat),
            get_expense_forecasting env ym uid pid fm = forecastErrorPayload fm)
        ∧ get_project_health env pid uid = .error .notFound
        ∧ get_resource_utilization env pid uid = .error .notFound
        ∧ get_risk_assessment env pid uid = .error .notFound) := by
  constructor
  · intro env uid pid p hp hno
    have hnm : p.isMember uid = false := by
      have := hno
      unfold ProjectRec.isMemberOrOwner at this
      exact (Bool.or_eq_false_iff.mp this).1
    have hv : get_budget_variance_analysis_inner env uid pid = .error .permission := by
      simp only [get_budget_variance_analysis_inner, hp, hno, Bool.false_eq_true, if_false]
    have hf : ∀ (ym : Int → Int) (fm : Nat),
        get_expense_forecasting_inner env ym uid pid fm = .error .permission := by
      intro ym fm
      simp only [get_expense_forecasting_inner, hp, hno, Bool.false_eq_true, if_false]
    refine ⟨hv, ?_, hf, ?_, ?_, ?_, ?_⟩
    · simp only [get_budget_variance_analysis, hv]
    · intro ym fm
      simp only [get_expense_forecasting, hf ym fm]
    · simp only [get_project_health, hp, hnm, Bool.false_eq_true, if_false]
    · simp only [get_resource_utilization, hp, hnm, Bool.false_eq_true, if_false]
    · simp only [get_risk_assessment, hp, hno, Bool.false_eq_true, if_false]
  · intro env uid pid hp
    have hv : get_budget_variance_analysis_inner env uid pid = .error .notFound := by
      simp only [get_budget_variance_analysis_inner, hp]
    have hf : ∀ (ym : Int → Int) (fm : Nat),
        get_expense_forecasting_inner env ym uid pid fm = .error .notFound := by
      intro ym fm
      simp only [get_expense_forecasting_inner, hp]
    refine ⟨hv, ?_, hf, ?_, ?_, ?_, ?_⟩
    · simp only [get_budget_variance_analysis, hv]
    · intro ym fm
      simp only [get_expense_forecasting, hf ym fm]
    · simp only [get_project_health, hp]
    · simp only [get_resource_utilization, hp]
    · simp only [get_risk_assessment, hp]

/-- C1 witness: the amended theorem applied to the non-member user 9 of
project 1, and to the absent project 2. -/
theorem C1_witness :
    get_budget_variance_analysis envC1 9 1 = varianceErrorPayload
      ∧ get_project_health envC1 1 9 = .error .permission
      ∧ get_resource_utilization envC1 1 9 = .error .permission
      ∧ get_budget_variance_analysis envC1 9 2 = varianceErrorPayload
      ∧ get_project_health envC1 2 9 = .error .notFound
      ∧ get_resource_utilization envC1 2 9 = .error .notFound :=
  ⟨((C1_errors_caught_in_finance_analytics.1 envC1 9 1 pC1 (by decide) (by decide)).2.1),
   ((C1_errors_caught_in_finance_analytics.1 envC1 9 1 pC1 (by decide) (by decide)).2.2.2.2.1),
   ((C1_errors_caught_in_finance_analytics.1 envC1 9 1 pC1 (by decide) (by decide)).2.2.2.2.2.1),
   ((C1_errors_caught_in_finance_analytics.2 envC1 9 2 (by decide)).2.1),
   ((C1_errors_caught_in_finance_analytics.2 envC1 9 2 (by decide)).2.2.2.2.1),
   ((C1_errors_caught_in_finance_analytics.2 envC1 9 2 (by decide)).2.2.2.2.2.1)⟩

/-- C4 counterexample: three expenses inside one single calendar month give
only one historical monthly aggregate point, yet `get_expense_forecasting`
produces a forecast (`forecast_available = true`), because the guard counts
the raw expenses (`len(expenses) < 3`), not the monthly aggregate points —
contradicting the claim, which demands an unavailable payload whenever
fewer than 3 monthly points exist. -/
theorem C4_counterexample :
    (envC4.projectExpenses 1).length = 3
      ∧ (historicalAmounts ymFdiv (envC4.projectExpenses 1)).length = 1
      ∧ (get_expense_forecasting envC4 ymFdiv 2 1 3).monthsAnalyzed = 1
      ∧ (get_expense_forecasting envC4 ymFdiv 2 1 3).forecastAvailable = true
      ∧ (get_expense_forecasting envC4 ymFdiv 2 1 3).dataPoints = none := by
  exact ⟨by decide, by decide, by with_unfolding_all decide, by with_unfolding_all decide,
    by with_unfolding_all decide⟩

/-- C4 amended: the forecasting guard counts raw expense rows.  With fewer
than 3 recorded expenses, `get_expense_forecasting` returns the unavailable
payload carrying `forecast_available = false` and `data_points` equal to the
number of expenses, and never raises (the operation is total); with 3 or
more expenses it produces a forecast regardless of how many distinct months
they span. -/
theorem C4_guard_counts_expenses :
    ∀ (env : Env) (ym : Int → Int) (uid pid fm : Nat) (p : ProjectRec),
      env.findProject pid = some p → p.isMemberOrOwner uid = true →
      ((env.projectExpenses pid).length < 3 →
        get_expense_forecasting env ym uid pid fm
          = forecastInsufficient (env.projectExpenses pid).length fm)
      ∧ (3 ≤ (env.projectExpenses pid).length →
        (get_expense_forecasting env ym uid pid fm).forecastAvailable = true) := by
  intro env ym uid pid fm p hp hm
  have hinner : get_expense_forecasting env ym uid pid fm
      = forecastCore ym (env.projectExpenses pid) (env.findBudget pid)
          env.firstOfMonth fm := by
    simp only [get_expense_forecasting, get_expense_forecasting_inner, hp, hm, if_true]
  constructor
  · intro hlt
    rw [hinner]
    simp only [forecastCore, if_pos hlt]
  · intro hge
    rw [hinner]
    simp only [forecastCore, if_neg (by omega : ¬(env.projectExpenses pid).length < 3)]
    simp only [forecastMain]

/-- C4 witness: the amended theorem applied to the three-expense
environment. -/
theorem C4_witness :
    (get_expense_forecasting envC4 ymFdiv 2 1 3).forecastAvailable = true :=
  (C4_guard_counts_expenses envC4 ymFdiv 2 1 3 pC2 (by decide) (by decide)).2 (by decide)

/-! Helper lemmas for the expense-mutation invariant. -/

theorem expensesSum_nil (q : Nat) : expensesSum [] q = 0 := rfl

theorem expensesSum_cons (x : ExpenseRec) (l : List ExpenseRec) (q : Nat) :
    expensesSum (x :: l) q
      = (if x.projectId == q then x.amount else 0) + expensesSum l q := by
  unfold expensesSum
  rw [List.filter_cons]
  by_cases h : (x.projectId == q) = true <;> simp [h]

theorem expensesSum_append_single (es : List ExpenseRec) (e : ExpenseRec) (q : Nat) :
    expensesSum (es ++ [e]) q
      = expensesSum es q + (if e.projectId == q then e.amount else 0) := by
  unfold expensesSum
  rw [List.filter_append, List.map_append, List.sum_append]
  by_cases h : (e.projectId == q) = true <;> simp [List.filter_cons, h]

theorem findBudget_setBudgetSpent_self (bs : List BudgetRec) (pid : Nat) (d : ℚ) :
    (setBudgetSpent bs pid d).find? (fun b => b.projectId == pid)
      = (bs.find? (fun b => b.projectId == pid)).map
          (fun b => { b with spentAmount := b.spentAmount + d }) := by
  induction bs with
  | nil => rfl
  | cons b rest ih =>
    by_cases h : (b.projectId == pid) = true
    · simp [setBudgetSpent, h, List.find?]
    · simp [setBudgetSpent, h, List.find?, ih]

theorem findBudget_setBudgetSpent_other (bs : List BudgetRec) (pid q : Nat) (d : ℚ)
    (hq : pid ≠ q) :
    (setBudgetSpent bs pid d).find? (fun b => b.projectId == q)
      = bs.find? (fun b => b.projectId == q) := by
  induction bs with
  | nil => rfl
  | cons b rest ih =>
    by_cases h : (b.projectId == pid) = true
    · have hbp : b.projectId = pid := by simpa using h
      have hbq : (b.projectId == q) = false := by
        rw [hbp]
        exact beq_eq_false_iff_ne.mpr hq
      simp [setBudgetSpent, h, List.find?, hbq]
    · cases hbq : (b.projectId == q) <;>
        simp [setBudgetSpent, h, List.find?, hbq, ih]

theorem setBudgetSpent_of_none (bs : List BudgetRec) (pid : Nat) (d : ℚ)
    (h : bs.find? (fun b => b.projectId == pid) = none) :
    setBudgetSpent bs pid d = bs := by
  induction bs with
  | nil => rfl
  | cons b rest ih =>
    cases hb : (b.projectId == pid) with
    | true => simp [List.find?, hb] at h
    | false =>
      have hr : rest.find? (fun b => b.projectId == pid) = none := by
        simpa [List.find?, hb] using h
      simp [setBudgetSpent, hb, ih hr]

theorem expensesSum_replaceExpense (es : List ExpenseRec) (eid : Nat)
    (e1 e0 : ExpenseRec) (q : Nat)
    (hfind : es.find? (fun e => e.eid == eid) = some e0) :
    expensesSum (replaceExpense es eid e1) q
      = expensesSum es q + (if e1.projectId == q then e1.amount else 0)
        - (if e0.projectId == q then e0.amount else 0) := by
  induction es with
  | nil => simp [List.find?] at hfind
  | cons e rest ih =>
    cases he : (e.eid == eid) with
    | true =>
      have he0 : e = e0 := by simpa [List.find?, he] using hfind
      subst he0
      rw [replaceExpense, if_pos he, expensesSum_cons, expensesSum_cons]
      ring
    | false =>
      have hf : rest.find? (fun e => e.eid == eid) = some e0 := by
        simpa [List.find?, he] using hfind
      rw [replaceExpense, if_neg (by simp [he]), expensesSum_cons, expensesSum_cons, ih hf]
      ring

theorem expensesSum_removeExpense (es : List ExpenseRec) (eid : Nat)
    (e0 : ExpenseRec) (q : Nat)
    (hfind : es.find? (fun e => e.eid == eid) = some e0) :
    expensesSum (removeExpense es eid) q
      = expensesSum es q - (if e0.projectId == q then e0.amount else 0) := by
  induction es with
  | nil => simp [List.find?] at hfind
  | cons e rest ih =>
    cases he : (e.eid == eid) with
    | true =>
      have he0 : e = e0 := by simpa [List.find?, he] using hfind
      subst he0
      rw [removeExpense, if_pos he, expensesSum_cons]
      ring
    | false =>
      have hf : rest.find? (fun e => e.eid == eid) = some e0 := by
        simpa [List.find?, he] using hfind
      rw [removeExpense, if_neg (by simp [he]), expensesSum_cons, expensesSum_cons, ih hf]
      ring

theorem add_expense_ok_shape (env : Env) (uid pid : Nat) (amt : ℚ)
    (cat : Option String) (tid : Option Nat) (dsc : String) (env2 : Env)
    (e : ExpenseRec)
    (h : add_expense env uid pid amt cat tid dsc = .ok (env2, e)) :
    e.amount = amt ∧ e.projectId = pid
      ∧ env2.expenses = env.expenses ++ [e]
      ∧ env2.budgets = setBudgetSpent env.budgets pid amt := by
  unfold add_expense at h
  cases hfp : env.findProject pid with
  | none =>
    rw [hfp] at h
    exact absurd h (by simp)
  | some p =>
    rw [hfp] at h
    simp only at h
    by_cases hm : (p.isMember uid) = true
    case neg =>
      rw [if_neg hm] at h
      exact absurd h (by simp)
    case pos =>
    rw [if_pos hm] at h
    cases hfb : env.findBudget pid with
    | none =>
      rw [hfb] at h
      simp only at h
      simp only [Except.ok.injEq, Prod.mk.injEq] at h
      obtain ⟨henv, he⟩ := h
      subst he
      subst henv
      refine ⟨rfl, rfl, rfl, ?_⟩
      rw [setBudgetSpent_of_none _ _ _ hfb]
    | some b =>
      rw [hfb] at h
      simp only at h
      by_cases hgt : b.spentAmount + amt > b.allocatedAmount
      · rw [if_pos hgt] at h
        cases hn : createBudgetOverrunNotifications p
            { b with spentAmount := b.spentAmount + amt } with
        | error err =>
          rw [hn] at h
          exact absurd h (by simp)
        | ok notes =>
          rw [hn] at h
          simp only at h
          simp only [Except.ok.injEq, Prod.mk.injEq] at h
          obtain ⟨henv, he⟩ := h
          subst he
          subst henv
          exact ⟨rfl, rfl, rfl, rfl⟩
      · rw [if_neg hgt] at h
        simp only [Except.ok.injEq, Prod.mk.injEq] at h
        obtain ⟨henv, he⟩ := h
        subst he
        subst henv
        exact ⟨rfl, rfl, rfl, rfl⟩

theorem update_expense_ok_shape (env : Env) (uid eid : Nat) (na : Option ℚ)
    (nd : Option String) (nc : Option String) (nt : Option Nat) (env2 : Env)
    (e1 e0 : ExpenseRec)
    (hfe : env.findExpense eid = some e0)
    (h : update_expense env uid eid na nd nc nt = .ok (env2, e1)) :
    e1 = applyExpenseUpdates e0 na nd nc nt
      ∧ env2.expenses = replaceExpense env.expenses eid e1
      ∧ env2.budgets = setBudgetSpent env.budgets e0.projectId (e1.amount - e0.amount) := by
  unfold update_expense at h
  rw [hfe] at h
  simp only at h
  cases hfp : env.findProject e0.projectId with
  | none =>
    rw [hfp] at h
    exact absurd h (by simp)
  | some p =>
    rw [hfp] at h
    simp only at h
    by_cases hm : (p.isMember uid) = true
    case neg =>
      rw [if_neg hm] at h
      exact absurd h (by simp)
    case pos =>
    rw [if_pos hm] at h
    cases hfb : env.findBudget e0.projectId with
    | none =>
      rw [hfb] at h
      simp only at h
      simp only [Except.ok.injEq, Prod.mk.injEq] at h
      obtain ⟨henv, he⟩ := h
      subst he
      subst henv
      refine ⟨rfl, rfl, ?_⟩
      rw [setBudgetSpent_of_none _ _ _ hfb]
    | some b =>
      rw [hfb] at h
      simp only at h
      simp only [Except.ok.injEq, Prod.mk.injEq] at h
      obtain ⟨henv, he⟩ := h
      subst he
      subst henv
      exact ⟨rfl, rfl, rfl⟩

theorem delete_expense_ok_shape (env : Env) (uid eid : Nat) (env2 : Env)
    (e0 : ExpenseRec)
    (hfe : env.findExpense eid = some e0)
    (h : delete_expense env uid eid = .ok env2) :
    env2.expenses = removeExpense env.expenses eid
      ∧ env2.budgets = setBudgetSpent env.budgets e0.projectId (-(e0.amount)) := by
  unfold delete_expense at h
  rw [hfe] at h
  simp only at h
  cases hfp : env.findProject e0.projectId with
  | none =>
    rw [hfp] at h
    exact absurd h (by simp)
  | some p =>
    rw [hfp] at h
    simp only at h
    by_cases hm : (p.isMember uid) = true
    case neg =>
      rw [if_neg hm] at h
      exact absurd h (by simp)
    case pos =>
    rw [if_pos hm] at h
    simp only [Except.ok.injEq] at h
    subst h
    exact ⟨rfl, rfl⟩

/-- C10: every successful expense mutation keeps the budget's spent amount
consistent with the project's expenses.  `add_expense` appends the new
expense and increases the spent amount by exactly its amount;
`update_expense` adjusts it by exactly the difference between the new and
old amount; `delete_expense` decreases it by exactly the deleted amount;
hence each operation preserves `spentConsistent` (spent = sum of the
project's expense amounts) for every project. -/
theorem C10_spent_amount_consistent :
    (∀ (env : Env) (uid pid : Nat) (amt : ℚ) (cat : Option String)
        (tid : Option Nat) (dsc : String) (env2 : Env) (e : ExpenseRec),
      add_expense env uid pid amt cat tid dsc = .ok (env2, e) →
      e.amount = amt
        ∧ env2.expenses = env.expenses ++ [e]
        ∧ (∀ b, env.findBudget pid = some b →
            env2.findBudget pid = some { b with spentAmount := b.spentAmount + amt })
        ∧ (∀ q, spentConsistent env q → spentConsistent env2 q))
    ∧ (∀ (env : Env) (uid eid : Nat) (na : Option ℚ) (nd nc : Option String)
        (nt : Option Nat) (env2 : Env) (e1 e0 : ExpenseRec),
      env.findExpense eid = some e0 →
      update_expense env uid eid na nd nc nt = .ok (env2, e1) →
      e1.amount = na.getD e0.amount
        ∧ (∀ b, env.findBudget e0.projectId = some b →
            env2.findBudget e0.projectId
              = some { b with spentAmount := b.spentAmount + (e1.amount - e0.amount) })
        ∧ (∀ q, spentConsistent env q → spentConsistent env2 q))
    ∧ (∀ (env : Env) (uid eid : Nat) (env2 : Env) (e0 : ExpenseRec),
      env.findExpense eid = some e0 →
      delete_expense env uid eid = .ok env2 →
      (∀ b, env.findBudget e0.projectId = some b →
          env2.findBudget e0.projectId
            = some { b with spentAmount := b.spentAmount + (-(e0.amount)) })
        ∧ (∀ q, spentConsistent env q → spentConsistent env2 q)) := by
  refine ⟨?_, ?_, ?_⟩
  · intro env uid pid amt cat tid dsc env2 e h
    obtain ⟨hamt, hpid, hexp, hbud⟩ := add_expense_ok_shape env uid pid amt cat tid dsc env2 e h
    refine ⟨hamt, hexp, ?_, ?_⟩
    · intro b hb
      show Env.findBudget env2 pid = _
      unfold Env.findBudget at hb ⊢
      rw [hbud, findBudget_setBudgetSpent_self, hb]
      rfl
    · intro q hq b2 hb2
      have hsum : spentSum env2 q
          = spentSum env q + (if e.projectId == q then e.amount else 0) := by
        unfold spentSum
        rw [hexp, expensesSum_append_single]
      by_cases hpq : pid = q
      · subst hpq
        unfold Env.findBudget at hb2
        rw [hbud, findBudget_setBudgetSpent_self] at hb2
        cases hb : env.budgets.find? (fun b => b.projectId == pid) with
        | none =>
          rw [hb] at hb2
          simp at hb2
        | some b =>
          rw [hb] at hb2
          have hb2e : ({ b with spentAmount := b.spentAmount + amt } : BudgetRec) = b2 := by
            simpa using hb2
          have hbase : b.spentAmount = spentSum env pid := hq b hb
          rw [← hb2e, hsum]
          have hbq : (e.projectId == pid) = true := by
            rw [hpid]
            exact beq_self_eq_true pid
          rw [hbq]
          simp [hbase, hamt]
      · unfold Env.findBudget at hb2
        rw [hbud, findBudget_setBudgetSpent_other _ _ _ _ hpq] at hb2
        have hbase := hq b2 hb2
        have hbq : (e.projectId == q) = false := by
          rw [hpid]
          exact beq_eq_false_iff_ne.mpr hpq
        rw [hsum, hbq]
        simp [hbase]
  · intro env uid eid na nd nc nt env2 e1 e0 hfe h
    obtain ⟨he1, hexp, hbud⟩ := update_expense_ok_shape env uid eid na nd nc nt env2 e1 e0 hfe h
    have hpid1 : e1.projectId = e0.projectId := by
      rw [he1]
      rfl
    have hfind : env.expenses.find? (fun e => e.eid == eid) = some e0 := hfe
    refine ⟨by rw [he1]; rfl, ?_, ?_⟩
    · intro b hb
      show Env.findBudget env2 e0.projectId = _
      unfold Env.findBudget at hb ⊢
      rw [hbud, findBudget_setBudgetSpent_self, hb]
      rfl
    · intro q hq b2 hb2
      have hsum : spentSum env2 q
          = spentSum env q + (if e1.projectId == q then e1.amount else 0)
            - (if e0.projectId == q then e0.amount else 0) := by
        unfold spentSum
        rw [hexp, expensesSum_replaceExpense _ _ _ _ _ hfind]
      by_cases hpq : e0.projectId = q
      · unfold Env.findBudget at hb2
        rw [hbud] at hb2
        rw [← hpq] at hb2 hsum hq ⊢
        rw [findBudget_setBudgetSpent_self] at hb2
        cases hb : env.budgets.find? (fun b => b.projectId == e0.projectId) with
        | none =>
          rw [hb] at hb2
          simp at hb2
        | some b =>
          rw [hb] at hb2
          have hb2e : ({ b with
              spentAmount := b.spentAmount + (e1.amount - e0.amount) } : BudgetRec) = b2 := by
            simpa using hb2
          have hbase : b.spentAmount = spentSum env e0.projectId := hq b hb
          rw [← hb2e, hsum]
          have h1 : (e1.projectId == e0.projectId) = true := by
            rw [hpid1]
            exact beq_self_eq_true _
          have h0 : (e0.projectId == e0.projectId) = true := beq_self_eq_true _
          rw [h1, h0]
          simp [hbase]
          ring
      · unfold Env.findBudget at hb2
        rw [hbud, findBudget_setBudgetSpent_other _ _ _ _ hpq] at hb2
        have hbase := hq b2 hb2
        have h1 : (e1.projectId == q) = false := by
          rw [hpid1]
          exact beq_eq_false_iff_ne.mpr hpq
        have h0 : (e0.projectId == q) = false := beq_eq_false_iff_ne.mpr hpq
        rw [hsum, h1, h0]
        simp [hbase]
  · intro env uid eid env2 e0 hfe h
    obtain ⟨hexp, hbud⟩ := delete_expense_ok_shape env uid eid env2 e0 hfe h
    have hfind : env.expenses.find? (fun e => e.eid == eid) = some e0 := hfe
    refine ⟨?_, ?_⟩
    · intro b hb
      show Env.findBudget env2 e0.projectId = _
      unfold Env.findBudget at hb ⊢
      rw [hbud, findBudget_setBudgetSpent_self, hb]
      rfl
    · intro q hq b2 hb2
      have hsum : spentSum env2 q
          = spentSum env q - (if e0.projectId == q then e0.amount else 0) := by
        unfold spentSum
        rw [hexp, expensesSum_removeExpense _ _ _ _ hfind]
      by_cases hpq : e0.projectId = q
      · unfold Env.findBudget at hb2
        rw [hbud] at hb2
        rw [← hpq] at hb2 hsum hq ⊢
        rw [findBudget_setBudgetSpent_self] at hb2
        cases hb : env.budgets.find? (fun b => b.projectId == e0.projectId) with
        | none =>
          rw [hb] at hb2
          simp at hb2
        | some b =>
          rw [hb] at hb2
          have hb2e : ({ b with
              spentAmount := b.spentAmount + (-(e0.amount)) } : BudgetRec) = b2 := by
            simpa using hb2
          have hbase : b.spentAmount = spentSum env e0.projectId := hq b hb
          rw [← hb2e, hsum]
          have h0 : (e0.projectId == e0.projectId) = true := beq_self_eq_true _
          rw [h0]
          simp [hbase]
          ring
      · unfold Env.findBudget at hb2
        rw [hbud, findBudget_setBudgetSpent_other _ _ _ _ hpq] at hb2
        have hbase := hq b2 hb2
        have h0 : (e0.projectId == q) = false := beq_eq_false_iff_ne.mpr hpq
        rw [hsum, h0]
        simp [hbase]

/-- C10 witness: adding an expense of 3 to a project whose budget (spent 7)
matches its single expense (amount 7) yields a state whose budget is again
consistent. -/
theorem C10_witness : spentConsistent envC10after 1 :=
  (C10_spent_amount_consistent.1 envC10 2 1 3 (some "A") none "d" envC10after expC10new
      (by with_unfolding_all decide)).2.2.2 1
    (by
      intro b hb
      have hb7 : b = budgetC10 := by
        have : envC10.findBudget 1 = some budgetC10 := by decide
        rw [this] at hb
        exact (Option.some.injEq _ _).mp hb.symm
      subst hb7
      with_unfolding_all decide)

end SynergySphere
